import Mathlib

/-!
Shallow embedding of the Payments-Service repository (Go): the payments
service gRPC handlers and Kafka consumer, the orders service gRPC handlers
and Kafka consumer, and the shared outbox publisher.

UUID-valued identifiers (event ids, order ids) are abstracted as `Nat`:
a wire-level identifier string is either a valid UUID (`some n`) or not a
UUID (`none`); `uuid.Parse` succeeds exactly on the former.  Monetary
amounts are `Int` (Go `int64`).  Database tables are lists of rows, updated
with SQL semantics (UPDATE maps over all matching rows, DELETE filters,
INSERT ... ON CONFLICT DO NOTHING checks for an existing key first).
`WithTx` rollback is modelled by returning the original state on the error
paths of a transaction body.
-/

namespace PaymentsService

/-- Status carried by a `PaymentResult` event
(`eventsv1.PaymentResultStatus`). -/
inductive PRStatus where
  | success
  | failNoAccount
  | failNotEnoughFunds
  | failInternal
deriving DecidableEq, Repr

/-- Wire form of a `PaymentRequested` event after `proto.Unmarshal`:
`event_id`/`order_id` are `some n` when the carried string is a valid UUID
(abstracted to its 128-bit value `n`), `none` otherwise. -/
structure PaymentRequestedWire where
  event_id : Option Nat
  order_id : Option Nat
  user_id : String
  amount : Int
deriving DecidableEq, Repr

/-- Wire form of a `PaymentResult` event after `proto.Unmarshal`. -/
structure PaymentResultWire where
  event_id : Option Nat
  order_id : Option Nat
  user_id : String
  status : PRStatus
  reason : String
deriving DecidableEq, Repr

/-- A fetched bus message: either its payload fails `proto.Unmarshal`
(`garbled`) or it decodes to an event value. -/
inductive BusMsg (α : Type) where
  | garbled
  | ok (ev : α)
deriving DecidableEq, Repr

/-- A well-formed `PaymentResult` as built by the payments consumer before
marshalling (its ids are real UUIDs). -/
structure PaymentResultEv where
  event_id : Nat
  order_id : Nat
  user_id : String
  status : PRStatus
  reason : String
deriving DecidableEq, Repr

/-- A well-formed `PaymentRequested` as built by the orders command handler
before marshalling. -/
structure PaymentRequestedEv where
  event_id : Nat
  order_id : Nat
  user_id : String
  amount : Int
deriving DecidableEq, Repr

/-- Payload bytes stored in an outbox row, kept structured: the marshalled
event they encode. -/
inductive Payload where
  | paymentRequested (ev : PaymentRequestedEv)
  | paymentResult (ev : PaymentResultEv)
deriving DecidableEq, Repr

/-- One `outbox` row: `id` monotonic, `kafka_key` the order id (the code
stores `orderID.String()`, abstracted to the UUID value), `sent` is whether
`sent_at` is set. -/
structure OutboxRow where
  id : Nat
  topic : String
  kafka_key : Nat
  payload : Payload
  sent : Bool
  attempts : Nat
  lastError : Option String
deriving DecidableEq, Repr

/-- One `accounts` row of the payments database. -/
structure Account where
  user_id : String
  balance : Int
deriving DecidableEq, Repr

/-- One `payment_operations` row: the "already debited for this order"
guard. -/
structure OperationRow where
  order_id : Nat
  user_id : String
  amount : Int
deriving DecidableEq, Repr

/-- One `topup_idempotency` row. -/
structure TopupRow where
  user_id : String
  idempotency_key : String
  amount : Int
  balance_after : Int
deriving DecidableEq, Repr

/-- One payments `inbox` row (`message_id` PK, `order_id` diagnostic). -/
structure InboxRowP where
  message_id : Nat
  order_id : Nat
deriving DecidableEq, Repr

/-- Committed state of the payments service database. -/
structure PaymentsDB where
  accounts : List Account
  operations : List OperationRow
  topups : List TopupRow
  inbox : List InboxRowP
  outbox : List OutboxRow
  nextOutboxId : Nat
deriving DecidableEq, Repr

/-- The empty payments database (fresh schema). -/
def PaymentsDB.empty : PaymentsDB :=
  { accounts := [], operations := [], topups := [], inbox := [],
    outbox := [], nextOutboxId := 0 }

/-! ### Payments-side SQL queries

The generated sqlc queries for accounts, operations, inbox and outbox are
not part of the provided sources (only their callers are); they are
modelled from the spec.  The `topup_idempotency` queries are translated
from `db/queries/topup_idempotency.sql`, which is in the sources. -/

/-- `SELECT balance FROM accounts WHERE user_id = $1` (first matching
row). -/
def findAccount (db : PaymentsDB) (u : String) : Option Account :=
  db.accounts.find? (fun a => a.user_id = u)

/-- Modelled from the spec: `AccountExists` — whether an `accounts` row for
`user_id` exists (spec 4.4 step 3, "no account row"). -/
def accountExists (db : PaymentsDB) (u : String) : Prop :=
  ∃ a ∈ db.accounts, a.user_id = u

instance (db : PaymentsDB) (u : String) : Decidable (accountExists db u) := by
  unfold accountExists; infer_instance

/-- Modelled from the spec: `CreateAccount` without key — "insert account;
if one already exists for the user, return `already_exists`" (surfaced to
the handler as `pgx.ErrNoRows`, here `none`).  A fresh account starts at
balance 0. -/
def sqlCreateAccount (db : PaymentsDB) (u : String) :
    Option (Account × PaymentsDB) :=
  if accountExists db u then none
  else
    some (⟨u, 0⟩, { db with accounts := ⟨u, 0⟩ :: db.accounts })

/-- Modelled from the spec: `CreateAccountIdempotent` — "an upsert-style
insert that tolerates pre-existing account rows for the same user and
returns the current balance idempotently". -/
def sqlCreateAccountIdempotent (db : PaymentsDB) (u : String) :
    Account × PaymentsDB :=
  match findAccount db u with
  | some a => (a, db)
  | none => (⟨u, 0⟩, { db with accounts := ⟨u, 0⟩ :: db.accounts })

/-- Modelled from the spec: the `TopUp` query — add `amount` to the
account's balance and return the updated row; `none` (`pgx.ErrNoRows`) when
no account exists for the user. -/
def sqlTopUp (db : PaymentsDB) (u : String) (amount : Int) :
    Option (Account × PaymentsDB) :=
  match findAccount db u with
  | none => none
  | some a =>
    some (⟨u, a.balance + amount⟩,
      { db with accounts := db.accounts.map (fun r =>
          if r.user_id = u then { r with balance := r.balance + amount }
          else r) })

/-- Modelled from the spec: `TryDeductOnce` (spec 4.4 step 2) — "a single
SQL statement that, conditioned on `account.user_id = user_id` AND
`account.balance ≥ amount`, subtracts `amount` and records an operation row
keyed by `order_id` to prevent double-debit ... The statement reports
whether an operation row was inserted" (`op_inserted` as 1/0). -/
def tryDeductOnce (db : PaymentsDB) (orderID : Nat) (u : String)
    (amount : Int) : Nat × PaymentsDB :=
  if ∃ o ∈ db.operations, o.order_id = orderID then (0, db)
  else
    match findAccount db u with
    | none => (0, db)
    | some a =>
      if amount ≤ a.balance then
        (1, { db with
          accounts := db.accounts.map (fun r =>
            if r.user_id = u then { r with balance := r.balance - amount }
            else r),
          operations := ⟨orderID, u, amount⟩ :: db.operations })
      else (0, db)

/-- Modelled from the spec: the payments `InsertInboxCheck` —
`INSERT INTO inbox (message_id, order_id) ... ON CONFLICT DO NOTHING`,
reporting the number of rows inserted (1 or 0). -/
def insertInboxCheckP (db : PaymentsDB) (msgID orderID : Nat) :
    Nat × PaymentsDB :=
  if ∃ r ∈ db.inbox, r.message_id = msgID then (0, db)
  else (1, { db with inbox := ⟨msgID, orderID⟩ :: db.inbox })

/-- Modelled from the spec: `InsertOutbox` — append an unsent outbox row
with the next monotonic id. -/
def insertOutboxP (db : PaymentsDB) (topic : String) (key : Nat)
    (payload : Payload) : PaymentsDB :=
  { db with
    outbox := db.outbox ++ [⟨db.nextOutboxId, topic, key, payload, false, 0, none⟩],
    nextOutboxId := db.nextOutboxId + 1 }

/-- From `topup_idempotency.sql`: `InsertTopupIdempotency` — insert
`(user_id, idempotency_key, amount, balance_after = 0)` with
`ON CONFLICT (user_id, idempotency_key) DO NOTHING`, returning the number
of rows inserted (1 or 0). -/
def insertTopupIdempotency (db : PaymentsDB) (u k : String) (amount : Int) :
    Nat × PaymentsDB :=
  if ∃ r ∈ db.topups, r.user_id = u ∧ r.idempotency_key = k then (0, db)
  else (1, { db with topups := ⟨u, k, amount, 0⟩ :: db.topups })

/-- From `topup_idempotency.sql`: `GetTopupIdempotency` — select the row
keyed by `(user_id, idempotency_key)`. -/
def getTopupIdempotency (db : PaymentsDB) (u k : String) : Option TopupRow :=
  db.topups.find? (fun r => r.user_id = u ∧ r.idempotency_key = k)

/-- From `topup_idempotency.sql`: `SetTopupIdempotencyBalance` — update
`balance_after` on the row keyed by `(user_id, idempotency_key)`. -/
def setTopupIdempotencyBalance (db : PaymentsDB) (u k : String)
    (bal : Int) : PaymentsDB :=
  { db with topups := db.topups.map (fun r =>
      if r.user_id = u ∧ r.idempotency_key = k then
        { r with balance_after := bal }
      else r) }

/-- From `topup_idempotency.sql`: `DeleteTopupIdempotency` — delete the row
keyed by `(user_id, idempotency_key)`. -/
def deleteTopupIdempotency (db : PaymentsDB) (u k : String) : PaymentsDB :=
  { db with topups := db.topups.filter (fun r =>
      ¬(r.user_id = u ∧ r.idempotency_key = k)) }

/-- gRPC status codes the handlers return on failure. -/
inductive GErr where
  | invalidArgument
  | notFound
  | alreadyExists
  | failedPrecondition
  | internal
deriving DecidableEq, Repr

instance {e a : Type} [DecidableEq e] [DecidableEq a] :
    DecidableEq (Except e a) := fun x y =>
  match x, y with
  | .error ex, .error ey =>
    if h : ex = ey then .isTrue (by rw [h])
    else .isFalse (fun hc => h (Except.error.inj hc))
  | .error _, .ok _ => .isFalse (fun hc => Except.noConfusion hc)
  | .ok _, .error _ => .isFalse (fun hc => Except.noConfusion hc)
  | .ok vx, .ok vy =>
    if h : vx = vy then .isTrue (by rw [h])
    else .isFalse (fun hc => h (Except.ok.inj hc))

/-! ### Payments gRPC handlers (`internal/grpc/handlers.go`) -/

/-- `Handlers.CreateAccount` without an idempotency key: validate
`user_id`, insert the account, map a conflict (`pgx.ErrNoRows`) to
`already_exists`.  On error the state is unchanged. -/
def createAccountNoKey (db : PaymentsDB) (u : String) :
    Except GErr Account × PaymentsDB :=
  if u = "" then (.error .invalidArgument, db)
  else
    match sqlCreateAccount db u with
    | none => (.error .alreadyExists, db)
    | some (a, db') => (.ok a, db')

/-- `Handlers.CreateAccount` with an idempotency key: the upsert-style
insert that tolerates a pre-existing account and returns the current
balance. -/
def createAccountKeyed (db : PaymentsDB) (u : String) :
    Except GErr Account × PaymentsDB :=
  if u = "" then (.error .invalidArgument, db)
  else
    let (a, db') := sqlCreateAccountIdempotent db u
    (.ok a, db')

/-- `Handlers.TopUp` without an idempotency key: validate, add the amount,
map `pgx.ErrNoRows` to `not_found`.  Returns the new balance. -/
def topUpNoKey (db : PaymentsDB) (u : String) (amount : Int) :
    Except GErr Int × PaymentsDB :=
  if u = "" then (.error .invalidArgument, db)
  else if amount ≤ 0 then (.error .invalidArgument, db)
  else
    match sqlTopUp db u amount with
    | none => (.error .notFound, db)
    | some (a, db') => (.ok a.balance, db')

/-- `Handlers.TopUp` with an idempotency key (`handlers.go` lines
160-227), one `WithTx` transaction: insert the idempotency row with
`balance_after = 0`; if the insert reports 0 rows, load the stored row,
reject an amount mismatch with `failed_precondition`, otherwise return the
stored `balance_after`; on a fresh insert add the amount to the balance
(deleting the idempotency row and failing `not_found` when the account is
missing) and write the new balance back into the row.  An error rolls the
transaction back, leaving the state unchanged. -/
def topUpKeyed (db : PaymentsDB) (u : String) (amount : Int) (k : String) :
    Except GErr Int × PaymentsDB :=
  if u = "" then (.error .invalidArgument, db)
  else if amount ≤ 0 then (.error .invalidArgument, db)
  else
    let (ins, db1) := insertTopupIdempotency db u k amount
    if ins = 0 then
      match getTopupIdempotency db1 u k with
      | none => (.error .internal, db)
      | some row =>
        if row.amount ≠ amount then (.error .failedPrecondition, db)
        else (.ok row.balance_after, db1)
    else
      match sqlTopUp db1 u amount with
      | none => (.error .notFound, db)
      | some (a, db2) =>
        (.ok a.balance, setTopupIdempotencyBalance db2 u k a.balance)

/-! ### Payments Kafka consumer (`PaymentRequestedConsumer.handleMessage`)

The handler returns `nil` (success, so the offset commits) on every path
modelled here; infrastructure/database errors, which are the only paths on
which it returns an error, are outside the model.  `freshID` is the
`uuid.NewString()` drawn for the produced `PaymentResult`. -/

/-- `PaymentRequestedConsumer.handleMessage`: unmarshal, validate
(`event_id`/`order_id` UUIDs, non-empty `user_id`, positive `amount`;
failures are swallowed with no side effect), then in one transaction:
inbox dedup, `TryDeductOnce`, classify, append the `PaymentResult` outbox
row with `kafka_key = order_id`. -/
def payHandle (db : PaymentsDB) (m : BusMsg PaymentRequestedWire)
    (freshID : Nat) (resultTopic : String) : PaymentsDB :=
  match m with
  | .garbled => db
  | .ok ev =>
    match ev.event_id with
    | none => db
    | some msgID =>
      match ev.order_id with
      | none => db
      | some orderID =>
        if ev.user_id = "" ∨ ev.amount ≤ 0 then db
        else
          let (ins, db1) := insertInboxCheckP db msgID orderID
          if ins = 0 then db1
          else
            let (op, db2) := tryDeductOnce db1 orderID ev.user_id ev.amount
            let status :=
              if op = 1 then PRStatus.success
              else if ¬ accountExists db2 ev.user_id then PRStatus.failNoAccount
              else PRStatus.failNotEnoughFunds
            let reason :=
              if op = 1 then ""
              else if ¬ accountExists db2 ev.user_id then "account not found"
              else "not enough funds"
            insertOutboxP db2 resultTopic orderID
              (.paymentResult ⟨freshID, orderID, ev.user_id, status, reason⟩)

/-! ### Orders service data model -/

/-- One `orders` row.  `status` is the string column
(`NEW`/`FINISHED`/`CANCELLED` as written by the code). -/
structure OrderRow where
  order_id : Nat
  user_id : String
  amount : Int
  description : String
  status : String
  created_at : Nat
  idempotency_key : Option String
deriving DecidableEq, Repr

/-- Committed state of the orders service database (its inbox is keyed by
`message_id` alone). -/
structure OrdersDB where
  orders : List OrderRow
  inbox : List Nat
  outbox : List OutboxRow
  nextOutboxId : Nat
deriving DecidableEq, Repr

/-- The empty orders database (fresh schema). -/
def OrdersDB.empty : OrdersDB :=
  { orders := [], inbox := [], outbox := [], nextOutboxId := 0 }

/-! ### Orders-side SQL queries

The orders queries are translated from the sqlc query file embedded in the
sources (`CreateOrder`, `CreateOrderIdempotent`, `GetOrderByIdempotency`,
`GetOrder`, `ListOrders`, `UpdateOrderStatusIfNew`); the orders inbox and
outbox queries are modelled from the spec as on the payments side.
`gen_random_uuid()` order ids and `now()` timestamps enter as
parameters. -/

/-- Whether some `orders` row carries `(user_id, idempotency_key)`. -/
def orderKeyTaken (db : OrdersDB) (u k : String) : Prop :=
  ∃ r ∈ db.orders, r.user_id = u ∧ r.idempotency_key = some k

instance (db : OrdersDB) (u k : String) : Decidable (orderKeyTaken db u k) := by
  unfold orderKeyTaken; infer_instance

/-- `CreateOrder`: insert a fresh order with status `'NEW'` and no key. -/
def sqlCreateOrder (db : OrdersDB) (u : String) (amount : Int)
    (descr : String) (freshOrder now : Nat) : OrderRow × OrdersDB :=
  let row : OrderRow := ⟨freshOrder, u, amount, descr, "NEW", now, none⟩
  (row, { db with orders := row :: db.orders })

/-- `CreateOrderIdempotent`: insert a fresh `'NEW'` order carrying the key,
`ON CONFLICT (user_id, idempotency_key) DO NOTHING RETURNING ...`; the
conflict case returns no row (`pgx.ErrNoRows`, here `none`). -/
def sqlCreateOrderIdempotent (db : OrdersDB) (u : String) (amount : Int)
    (descr : String) (k : String) (freshOrder now : Nat) :
    Option (OrderRow × OrdersDB) :=
  if orderKeyTaken db u k then none
  else
    let row : OrderRow := ⟨freshOrder, u, amount, descr, "NEW", now, some k⟩
    some (row, { db with orders := row :: db.orders })

/-- `GetOrderByIdempotency`: select the order keyed by
`(user_id, idempotency_key)`. -/
def getOrderByIdempotency (db : OrdersDB) (u k : String) : Option OrderRow :=
  db.orders.find? (fun r => r.user_id = u ∧ r.idempotency_key = some k)

/-- `UpdateOrderStatusIfNew`:
`UPDATE orders SET status = $2 WHERE order_id = $1 AND status = 'NEW'`. -/
def updateOrderStatusIfNew (db : OrdersDB) (orderID : Nat) (s : String) :
    OrdersDB :=
  { db with orders := db.orders.map (fun r =>
      if r.order_id = orderID ∧ r.status = "NEW" then { r with status := s }
      else r) }

/-- Modelled from the spec: the orders `InsertInboxCheck` —
`INSERT INTO inbox (message_id) ... ON CONFLICT DO NOTHING`, reporting the
number of rows inserted (1 or 0). -/
def insertInboxCheckO (db : OrdersDB) (msgID : Nat) : Nat × OrdersDB :=
  if msgID ∈ db.inbox then (0, db)
  else (1, { db with inbox := msgID :: db.inbox })

/-- Modelled from the spec: the orders `InsertOutbox` — append an unsent
outbox row with the next monotonic id. -/
def insertOutboxO (db : OrdersDB) (topic : String) (key : Nat)
    (payload : Payload) : OrdersDB :=
  { db with
    outbox := db.outbox ++ [⟨db.nextOutboxId, topic, key, payload, false, 0, none⟩],
    nextOutboxId := db.nextOutboxId + 1 }

/-! ### Orders gRPC handler (`Handlers.CreateOrder`) -/

/-- The response body of `CreateOrder` (the `ordersv1.Order` message,
minus the proto timestamp encoding). -/
structure OrderResp where
  order_id : Nat
  user_id : String
  amount : Int
  description : String
  status : String
  created_at : Nat
deriving DecidableEq, Repr

/-- Response fields taken from an `orders` row. -/
def respOfRow (r : OrderRow) : OrderResp :=
  ⟨r.order_id, r.user_id, r.amount, r.description, r.status, r.created_at⟩

/-- `Handlers.CreateOrder` with an idempotency key: validate; in one
`WithTx` transaction insert the keyed order; on conflict load the stored
order, reject amount/description mismatch with `failed_precondition`,
otherwise return the stored order *without* appending an outbox row; on a
fresh insert append the `PaymentRequested` outbox row (`kafka_key` =
the new order id) in the same transaction.  Errors roll back. -/
def createOrderKeyed (db : OrdersDB) (u : String) (amount : Int)
    (descr : String) (k : String) (freshOrder freshEvent now : Nat) :
    Except GErr OrderResp × OrdersDB :=
  if u = "" then (.error .invalidArgument, db)
  else if amount ≤ 0 then (.error .invalidArgument, db)
  else if descr = "" then (.error .invalidArgument, db)
  else
    match sqlCreateOrderIdempotent db u amount descr k freshOrder now with
    | some (row, db1) =>
      let db2 := insertOutboxO db1 "payments.payment_requested.v1"
        row.order_id (.paymentRequested ⟨freshEvent, row.order_id, u, amount⟩)
      (.ok (respOfRow row), db2)
    | none =>
      match getOrderByIdempotency db u k with
      | none => (.error .internal, db)
      | some row =>
        if row.amount ≠ amount ∨ row.description ≠ descr then
          (.error .failedPrecondition, db)
        else (.ok (respOfRow row), db)

/-- `Handlers.CreateOrder` without an idempotency key: validate, insert a
fresh order and append the `PaymentRequested` outbox row in one
transaction. -/
def createOrderNoKey (db : OrdersDB) (u : String) (amount : Int)
    (descr : String) (freshOrder freshEvent now : Nat) :
    Except GErr OrderResp × OrdersDB :=
  if u = "" then (.error .invalidArgument, db)
  else if amount ≤ 0 then (.error .invalidArgument, db)
  else if descr = "" then (.error .invalidArgument, db)
  else
    let (row, db1) := sqlCreateOrder db u amount descr freshOrder now
    let db2 := insertOutboxO db1 "payments.payment_requested.v1"
      row.order_id (.paymentRequested ⟨freshEvent, row.order_id, u, amount⟩)
    (.ok (respOfRow row), db2)

/-! ### Orders Kafka consumer (`PaymentResultConsumer.handleMessage`) -/

/-- The status string the orders consumer writes for a result status:
`SUCCESS → FINISHED`, anything else → `CANCELLED`. -/
def resultNewStatus (s : PRStatus) : String :=
  if s = PRStatus.success then "FINISHED" else "CANCELLED"

/-- `PaymentResultConsumer.handleMessage`: unmarshal, parse the two UUIDs
(failures are swallowed with no side effect; no other field is validated),
compute the new status, then in one transaction: inbox dedup and the
`status = 'NEW'`-guarded order update. -/
def ordersHandle (db : OrdersDB) (m : BusMsg PaymentResultWire) : OrdersDB :=
  match m with
  | .garbled => db
  | .ok ev =>
    match ev.event_id with
    | none => db
    | some msgID =>
      match ev.order_id with
      | none => db
      | some orderID =>
        let (ins, db1) := insertInboxCheckO db msgID
        if ins = 0 then db1
        else updateOrderStatusIfNew db1 orderID (resultNewStatus ev.status)

/-! ### Outbox publisher (`OutboxPublisher.publishOnce`)

Both services run the same publisher; it is modelled over the orders
database (the claim's cited code).  `pubOk id` tells whether the Kafka
write for the row with this id succeeds on this pass — the per-row bus
outcome is the only nondeterministic input. -/

/-- Modelled from the spec: `LockUnsentOutbox` — lock up to `batch` oldest
unsent rows in `id` order (`FOR UPDATE SKIP LOCKED`; ids are appended
monotonically, so list order is id order). -/
def lockUnsentOutbox (rows : List OutboxRow) (batch : Nat) : List OutboxRow :=
  (rows.filter (fun r => r.sent = false)).take batch

/-- Modelled from the spec: `MarkOutboxSent` — set `sent_at` on the row
with this id. -/
def markOutboxSent (rows : List OutboxRow) (i : Nat) : List OutboxRow :=
  rows.map (fun r => if r.id = i then { r with sent := true } else r)

/-- Modelled from the spec: `MarkOutboxAttemptFailed` — increment
`attempts` and record `last_error` on the row with this id. -/
def markOutboxAttemptFailed (rows : List OutboxRow) (i : Nat) (e : String) :
    List OutboxRow :=
  rows.map (fun r =>
    if r.id = i then { r with attempts := r.attempts + 1, lastError := some e }
    else r)

/-- The per-row body of the publisher loop: publish; on failure record the
attempt and continue, on success mark sent. -/
def publishStep (pubOk : Nat → Bool) (rows : List OutboxRow)
    (r : OutboxRow) : List OutboxRow :=
  if pubOk r.id then markOutboxSent rows r.id
  else markOutboxAttemptFailed rows r.id "publish failed"

/-- `OutboxPublisher.publishOnce`: one transaction that locks a batch of
unsent rows and walks it with `publishStep`; the transaction commits
whatever the per-row publish outcomes were. -/
def publishOnce (db : OrdersDB) (pubOk : Nat → Bool) (batch : Nat) :
    OrdersDB :=
  { db with
    outbox := (lockUnsentOutbox db.outbox batch).foldl (publishStep pubOk)
      db.outbox }

/-- The payments-side publisher (`OutboxPublisher` is instantiated in both
services); same algorithm over the payments outbox. -/
def publishOnceP (db : PaymentsDB) (pubOk : Nat → Bool) (batch : Nat) :
    PaymentsDB :=
  { db with
    outbox := (lockUnsentOutbox db.outbox batch).foldl (publishStep pubOk)
      db.outbox }

/-! ### Command alphabets: everything that can touch each database -/

/-- One payments-service step: a gRPC command, a consumed bus message, or a
publisher tick. -/
inductive PayCmd where
  | createAcctN (u : String)
  | createAcctK (u : String)
  | topUpN (u : String) (amount : Int)
  | topUpK (u : String) (amount : Int) (k : String)
  | consume (m : BusMsg PaymentRequestedWire) (freshID : Nat) (topic : String)
  | publish (pubOk : Nat → Bool) (batch : Nat)

/-- Effect of one payments-service step on the payments database. -/
def payStep (db : PaymentsDB) (c : PayCmd) : PaymentsDB :=
  match c with
  | .createAcctN u => (createAccountNoKey db u).2
  | .createAcctK u => (createAccountKeyed db u).2
  | .topUpN u a => (topUpNoKey db u a).2
  | .topUpK u a k => (topUpKeyed db u a k).2
  | .consume m f t => payHandle db m f t
  | .publish pubOk batch => publishOnceP db pubOk batch

/-- One orders-service step: a gRPC command, a consumed bus message, or a
publisher tick. -/
inductive OrdCmd where
  | createN (u : String) (amount : Int) (descr : String) (fo fe now : Nat)
  | createK (u : String) (amount : Int) (descr : String) (k : String)
      (fo fe now : Nat)
  | consume (m : BusMsg PaymentResultWire)
  | publish (pubOk : Nat → Bool) (batch : Nat)

/-- Effect of one orders-service step on the orders database. -/
def ordStep (db : OrdersDB) (c : OrdCmd) : OrdersDB :=
  match c with
  | .createN u a d fo fe now => (createOrderNoKey db u a d fo fe now).2
  | .createK u a d k fo fe now => (createOrderKeyed db u a d k fo fe now).2
  | .consume m => ordersHandle db m
  | .publish pubOk batch => publishOnce db pubOk batch

/-! ### Observation functions and invariants -/

/-- The status of the order with this id, when it exists. -/
def orderStatus (db : OrdersDB) (oid : Nat) : Option String :=
  (db.orders.find? (fun r => r.order_id = oid)).map (fun r => r.status)

/-- Lookup of an outbox row by its id. -/
def rowById (rows : List OutboxRow) (i : Nat) : Option OutboxRow :=
  rows.find? (fun r => r.id = i)

/-- Whether the payments inbox has a row for this message id. -/
def inboxHasP (db : PaymentsDB) (i : Nat) : Prop :=
  ∃ r ∈ db.inbox, r.message_id = i

instance (db : PaymentsDB) (i : Nat) : Decidable (inboxHasP db i) := by
  unfold inboxHasP; infer_instance

/-- Schema invariant: `user_id` is the primary key of `accounts`. -/
def accountsWF (db : PaymentsDB) : Prop :=
  (db.accounts.map (fun a => a.user_id)).Nodup

instance (db : PaymentsDB) : Decidable (accountsWF db) := by
  unfold accountsWF; infer_instance

/-- The spec's balance invariant: every committed balance is ≥ 0. -/
def balancesNonneg (db : PaymentsDB) : Prop :=
  ∀ a ∈ db.accounts, 0 ≤ a.balance

instance (db : PaymentsDB) : Decidable (balancesNonneg db) := by
  unfold balancesNonneg; infer_instance

/-! ## Helper lemmas -/

theorem tryDeductOnce_outbox (db : PaymentsDB) (o : Nat) (u : String)
    (a : Int) : ((tryDeductOnce db o u a).2).outbox = db.outbox := by
  unfold tryDeductOnce
  split
  · rfl
  · split
    · rfl
    · split <;> rfl

theorem tryDeductOnce_nextOutboxId (db : PaymentsDB) (o : Nat) (u : String)
    (a : Int) : ((tryDeductOnce db o u a).2).nextOutboxId = db.nextOutboxId := by
  unfold tryDeductOnce
  split
  · rfl
  · split
    · rfl
    · split <;> rfl

theorem tryDeductOnce_inbox (db : PaymentsDB) (o : Nat) (u : String)
    (a : Int) : ((tryDeductOnce db o u a).2).inbox = db.inbox := by
  unfold tryDeductOnce
  split
  · rfl
  · split
    · rfl
    · split <;> rfl

theorem tryDeductOnce_topups (db : PaymentsDB) (o : Nat) (u : String)
    (a : Int) : ((tryDeductOnce db o u a).2).topups = db.topups := by
  unfold tryDeductOnce
  split
  · rfl
  · split
    · rfl
    · split <;> rfl

/-- When `TryDeductOnce` reports no inserted operation row, it changed
nothing. -/
theorem tryDeductOnce_fst_ne_one (db : PaymentsDB) (o : Nat) (u : String)
    (a : Int) (h : (tryDeductOnce db o u a).1 ≠ 1) :
    (tryDeductOnce db o u a).2 = db := by
  unfold tryDeductOnce at h ⊢
  by_cases hop : ∃ r ∈ db.operations, r.order_id = o
  · simp [hop]
  · cases hacct : findAccount db u with
    | none => simp [hop, hacct]
    | some acct =>
      by_cases hbal : a ≤ acct.balance
      · simp [hop, hacct, hbal] at h
      · simp [hop, hacct, hbal]

/-- When `TryDeductOnce` reports an inserted operation row, the debit
happened: the operation row is recorded and the account was debited. -/
theorem tryDeductOnce_fst_one (db : PaymentsDB) (o : Nat) (u : String)
    (a : Int) (h : (tryDeductOnce db o u a).1 = 1) :
    ∃ acct, findAccount db u = some acct ∧ a ≤ acct.balance ∧
      (¬ ∃ r ∈ db.operations, r.order_id = o) ∧
      (tryDeductOnce db o u a).2 = { db with
        accounts := db.accounts.map (fun r =>
          if r.user_id = u then { r with balance := r.balance - a } else r),
        operations := ⟨o, u, a⟩ :: db.operations } := by
  unfold tryDeductOnce at h ⊢
  by_cases hop : ∃ r ∈ db.operations, r.order_id = o
  · simp [hop] at h
  · cases hacct : findAccount db u with
    | none => simp [hop, hacct] at h
    | some acct =>
      by_cases hbal : a ≤ acct.balance
      · exact ⟨acct, rfl, hbal, hop, by simp [hop, hacct, hbal]⟩
      · simp [hop, hacct, hbal] at h

/-- The central unfolding of the payments consumer handler on a message
that passes all validation. -/
theorem payHandle_ok (db : PaymentsDB) (ev : PaymentRequestedWire)
    (i o fresh : Nat) (topic : String) (op : Nat) (db2 : PaymentsDB)
    (hei : ev.event_id = some i) (heo : ev.order_id = some o)
    (hu : ev.user_id ≠ "") (ha : 0 < ev.amount)
    (hp : tryDeductOnce { db with inbox := ⟨i, o⟩ :: db.inbox } o
      ev.user_id ev.amount = (op, db2)) :
    payHandle db (.ok ev) fresh topic =
      if inboxHasP db i then db
      else
        insertOutboxP db2 topic o (.paymentResult
          ⟨fresh, o, ev.user_id,
           if op = 1 then PRStatus.success
           else if ¬ accountExists db2 ev.user_id then PRStatus.failNoAccount
           else PRStatus.failNotEnoughFunds,
           if op = 1 then ""
           else if ¬ accountExists db2 ev.user_id then "account not found"
           else "not enough funds"⟩) := by
  have hval : ¬(ev.user_id = "" ∨ ev.amount ≤ 0) := by push_neg; exact ⟨hu, by omega⟩
  by_cases hdup : inboxHasP db i
  · simp only [payHandle, hei, heo, if_neg hval, insertInboxCheckP,
      if_pos (show ∃ r ∈ db.inbox, r.message_id = i from hdup), if_pos hdup]
    simp
  · simp only [payHandle, hei, heo, if_neg hval, insertInboxCheckP,
      if_neg (show ¬∃ r ∈ db.inbox, r.message_id = i from hdup), if_neg hdup,
      hp]
    simp

/-- The central unfolding of the orders consumer handler on a message
whose two UUID fields parse. -/
theorem ordersHandle_ok (db : OrdersDB) (ev : PaymentResultWire) (i o : Nat)
    (hei : ev.event_id = some i) (heo : ev.order_id = some o) :
    ordersHandle db (.ok ev) =
      if i ∈ db.inbox then db
      else updateOrderStatusIfNew { db with inbox := i :: db.inbox } o
        (resultNewStatus ev.status) := by
  by_cases hdup : i ∈ db.inbox
  · simp only [ordersHandle, hei, heo, insertInboxCheckO, if_pos hdup]
    simp [hdup]
  · simp only [ordersHandle, hei, heo, insertInboxCheckO, if_neg hdup]
    simp [hdup]

/-! ## Claims -/

/-- **C1.** For every inbound event (PaymentRequested in the payments
consumer, PaymentResult in the orders consumer) whose `event_id` already
has an inbox row, the consumer transaction commits with no business side
effect — the committed state is exactly the prior state: no debit, no new
PaymentResult outbox row, no order status update.  When the inbox row is
newly inserted, the side effects commit with it: the payments consumer
appends exactly one PaymentResult outbox row, and the orders consumer runs
the guarded status update, atomically with the new inbox row. -/
theorem inbox_dedup_exactly_once_effect :
    (∀ (db : PaymentsDB) (ev : PaymentRequestedWire) (i o fresh : Nat)
       (topic : String),
       ev.event_id = some i → ev.order_id = some o →
       ev.user_id ≠ "" → 0 < ev.amount →
       (inboxHasP db i → payHandle db (.ok ev) fresh topic = db) ∧
       (¬ inboxHasP db i →
          inboxHasP (payHandle db (.ok ev) fresh topic) i ∧
          ∃ pr : PaymentResultEv,
            (payHandle db (.ok ev) fresh topic).outbox =
              db.outbox ++ [⟨db.nextOutboxId, topic, o, .paymentResult pr,
                false, 0, none⟩])) ∧
    (∀ (db : OrdersDB) (ev : PaymentResultWire) (i o : Nat),
       ev.event_id = some i → ev.order_id = some o →
       (i ∈ db.inbox → ordersHandle db (.ok ev) = db) ∧
       (i ∉ db.inbox →
          ordersHandle db (.ok ev) =
            updateOrderStatusIfNew { db with inbox := i :: db.inbox } o
              (resultNewStatus ev.status) ∧
          i ∈ (ordersHandle db (.ok ev)).inbox)) := by
  constructor
  · intro db ev i o fresh topic hei heo hu ha
    rcases hq : tryDeductOnce { db with inbox := ⟨i, o⟩ :: db.inbox } o
      ev.user_id ev.amount with ⟨op, db2⟩
    have hdb2 : db2 = (tryDeductOnce { db with inbox := ⟨i, o⟩ :: db.inbox } o
      ev.user_id ev.amount).2 := by rw [hq]
    rw [payHandle_ok db ev i o fresh topic op db2 hei heo hu ha hq]
    constructor
    · intro hdup
      rw [if_pos hdup]
    · intro hfresh
      rw [if_neg hfresh]
      constructor
      · show inboxHasP (insertOutboxP _ _ _ _) i
        unfold inboxHasP insertOutboxP
        simp only
        rw [hdb2, tryDeductOnce_inbox]
        exact ⟨⟨i, o⟩, by simp, rfl⟩
      · refine ⟨⟨fresh, o, ev.user_id,
          if op = 1 then PRStatus.success
          else if ¬ accountExists db2 ev.user_id then PRStatus.failNoAccount
          else PRStatus.failNotEnoughFunds,
          if op = 1 then ""
          else if ¬ accountExists db2 ev.user_id then "account not found"
          else "not enough funds"⟩, ?_⟩
        unfold insertOutboxP
        simp only
        rw [hdb2, tryDeductOnce_outbox, tryDeductOnce_nextOutboxId]
  · intro db ev i o hei heo
    rw [ordersHandle_ok db ev i o hei heo]
    constructor
    · intro hdup
      rw [if_pos hdup]
    · intro hfresh
      rw [if_neg hfresh]
      refine ⟨rfl, ?_⟩
      unfold updateOrderStatusIfNew
      simp

/-- Witness for C1: on a payments database whose inbox already holds
message id 1, the handler is a no-op; on an orders database whose inbox
already holds message id 7, the handler is a no-op. -/
theorem inbox_dedup_exactly_once_effect_witness :
    payHandle ⟨[⟨"u", 3⟩], [], [], [⟨1, 2⟩], [], 0⟩
      (.ok ⟨some 1, some 2, "u", 5⟩) 9 "t" = ⟨[⟨"u", 3⟩], [], [], [⟨1, 2⟩], [], 0⟩ ∧
    ordersHandle ⟨[], [7], [], 0⟩
      (.ok ⟨some 7, some 2, "u", .success, ""⟩) = ⟨[], [7], [], 0⟩ := by
  constructor
  · exact (inbox_dedup_exactly_once_effect.1 ⟨[⟨"u", 3⟩], [], [], [⟨1, 2⟩], [], 0⟩
      ⟨some 1, some 2, "u", 5⟩ 1 2 9 "t" rfl rfl (by decide) (by decide)).1
      (by decide)
  · exact (inbox_dedup_exactly_once_effect.2 ⟨[], [7], [], 0⟩
      ⟨some 7, some 2, "u", .success, ""⟩ 7 2 rfl rfl).1 (by decide)

/-- **C2.** For every PaymentRequested event that passes validation and is
not a duplicate, the payments consumer classifies the debit outcome
exactly as: operation row inserted (`op = 1`, which happens precisely when
the account exists with sufficient balance and no operation row for the
order existed) ⇒ SUCCESS; not inserted and no account row ⇒
FAIL_NO_ACCOUNT; not inserted and an account exists ⇒
FAIL_NOT_ENOUGH_FUNDS; and it appends exactly one PaymentResult outbox row
carrying that status with `kafka_key = order_id`, in the same
transaction. -/
theorem debit_classification (db : PaymentsDB) (ev : PaymentRequestedWire)
    (i o fresh : Nat) (topic : String) (op : Nat) (db2 : PaymentsDB)
    (hei : ev.event_id = some i) (heo : ev.order_id = some o)
    (hu : ev.user_id ≠ "") (ha : 0 < ev.amount) (hfresh : ¬ inboxHasP db i)
    (hp : tryDeductOnce { db with inbox := ⟨i, o⟩ :: db.inbox } o
      ev.user_id ev.amount = (op, db2)) :
    ∃ st rs,
      payHandle db (.ok ev) fresh topic =
        insertOutboxP db2 topic o (.paymentResult ⟨fresh, o, ev.user_id, st, rs⟩) ∧
      (payHandle db (.ok ev) fresh topic).outbox =
        db.outbox ++ [⟨db.nextOutboxId, topic, o,
          .paymentResult ⟨fresh, o, ev.user_id, st, rs⟩, false, 0, none⟩] ∧
      (op = 1 → st = PRStatus.success ∧
        ∃ acct, findAccount db ev.user_id = some acct ∧
          ev.amount ≤ acct.balance ∧
          db2.operations = ⟨o, ev.user_id, ev.amount⟩ :: db.operations) ∧
      (op ≠ 1 → db2 = { db with inbox := ⟨i, o⟩ :: db.inbox } ∧
        (¬ accountExists db ev.user_id →
          st = PRStatus.failNoAccount ∧ rs = "account not found") ∧
        (accountExists db ev.user_id →
          st = PRStatus.failNotEnoughFunds ∧ rs = "not enough funds")) := by
  have hdb2 : db2 = (tryDeductOnce { db with inbox := ⟨i, o⟩ :: db.inbox } o
    ev.user_id ev.amount).2 := by rw [hp]
  refine ⟨if op = 1 then PRStatus.success
    else if ¬ accountExists db2 ev.user_id then PRStatus.failNoAccount
    else PRStatus.failNotEnoughFunds,
    if op = 1 then ""
    else if ¬ accountExists db2 ev.user_id then "account not found"
    else "not enough funds", ?_, ?_, ?_, ?_⟩
  · rw [payHandle_ok db ev i o fresh topic op db2 hei heo hu ha hp,
      if_neg hfresh]
  · rw [payHandle_ok db ev i o fresh topic op db2 hei heo hu ha hp,
      if_neg hfresh]
    unfold insertOutboxP
    simp only
    rw [hdb2, tryDeductOnce_outbox, tryDeductOnce_nextOutboxId]
  · intro hop
    obtain ⟨acct, hfind, hbal, _, heq⟩ := tryDeductOnce_fst_one
      { db with inbox := ⟨i, o⟩ :: db.inbox } o ev.user_id ev.amount
      (by rw [hp]; exact hop)
    refine ⟨if_pos hop, acct, hfind, hbal, ?_⟩
    rw [hdb2, heq]
  · intro hop
    have h2 : db2 = { db with inbox := ⟨i, o⟩ :: db.inbox } := by
      rw [hdb2]
      exact tryDeductOnce_fst_ne_one _ o ev.user_id ev.amount
        (by rw [hp]; exact hop)
    have hex : accountExists db2 ev.user_id ↔ accountExists db ev.user_id := by
      rw [h2]; exact Iff.rfl
    refine ⟨h2, ?_, ?_⟩
    · intro hacc
      rw [if_neg hop, if_neg hop, if_pos (by rw [hex]; exact hacc),
        if_pos (by rw [hex]; exact hacc)]
      exact ⟨rfl, rfl⟩
    · intro hacc
      rw [if_neg hop, if_neg hop,
        if_neg (show ¬¬accountExists db2 ev.user_id by rw [hex]; exact not_not_intro hacc),
        if_neg (show ¬¬accountExists db2 ev.user_id by rw [hex]; exact not_not_intro hacc)]
      exact ⟨rfl, rfl⟩

/-- Witness for C2: a user with balance 10 debited by 5 — the operation
row is inserted, the status is SUCCESS, and exactly one PaymentResult
outbox row keyed by the order id is appended. -/
theorem debit_classification_witness :
    ∃ st rs,
      payHandle ⟨[⟨"u", 10⟩], [], [], [], [], 0⟩
        (.ok ⟨some 1, some 2, "u", 5⟩) 9 "t" =
        insertOutboxP ⟨[⟨"u", 5⟩], [⟨2, "u", 5⟩], [], [⟨1, 2⟩], [], 0⟩ "t" 2
          (.paymentResult ⟨9, 2, "u", st, rs⟩) ∧
      (payHandle ⟨[⟨"u", 10⟩], [], [], [], [], 0⟩
        (.ok ⟨some 1, some 2, "u", 5⟩) 9 "t").outbox =
        [] ++ [⟨0, "t", 2, .paymentResult ⟨9, 2, "u", st, rs⟩, false, 0, none⟩] ∧
      ((1 : Nat) = 1 → st = PRStatus.success ∧
        ∃ acct, findAccount ⟨[⟨"u", 10⟩], [], [], [], [], 0⟩ "u" = some acct ∧
          (5 : Int) ≤ acct.balance ∧
          ([⟨2, "u", 5⟩] : List OperationRow) = ⟨2, "u", 5⟩ :: []) ∧
      ((1 : Nat) ≠ 1 →
        (⟨[⟨"u", 5⟩], [⟨2, "u", 5⟩], [], [⟨1, 2⟩], [], 0⟩ : PaymentsDB) =
          ⟨[⟨"u", 10⟩], [], [], [⟨1, 2⟩], [], 0⟩ ∧
        (¬ accountExists ⟨[⟨"u", 10⟩], [], [], [], [], 0⟩ "u" →
          st = PRStatus.failNoAccount ∧ rs = "account not found") ∧
        (accountExists ⟨[⟨"u", 10⟩], [], [], [], [], 0⟩ "u" →
          st = PRStatus.failNotEnoughFunds ∧ rs = "not enough funds")) :=
  debit_classification ⟨[⟨"u", 10⟩], [], [], [], [], 0⟩
    ⟨some 1, some 2, "u", 5⟩ 1 2 9 "t" 1
    ⟨[⟨"u", 5⟩], [⟨2, "u", 5⟩], [], [⟨1, 2⟩], [], 0⟩
    rfl rfl (by decide) (by decide) (by decide) (by decide)

/-- Looking up an order's status commutes with the guarded update: the
status changes only for the targeted order and only from `NEW`. -/
theorem orderStatus_update (db : OrdersDB) (oid oid' : Nat) (s : String) :
    orderStatus (updateOrderStatusIfNew db oid s) oid' =
      (orderStatus db oid').map
        (fun st => if oid' = oid ∧ st = "NEW" then s else st) := by
  unfold orderStatus updateOrderStatusIfNew
  simp only
  generalize db.orders = l
  have hord : ∀ r : OrderRow, (if r.order_id = oid ∧ r.status = "NEW"
      then { r with status := s } else r).order_id = r.order_id := by
    intro r
    split <;> rfl
  rw [List.find?_map]
  have hpg : ((fun r : OrderRow => decide (r.order_id = oid')) ∘ (fun r =>
      if r.order_id = oid ∧ r.status = "NEW" then { r with status := s }
      else r)) = (fun r : OrderRow => decide (r.order_id = oid')) := by
    funext r
    simp [hord r]
  rw [hpg]
  cases hfind : l.find? (fun r => decide (r.order_id = oid')) with
  | none => rfl
  | some r =>
    have hro : r.order_id = oid' := by simpa using List.find?_some hfind
    by_cases hc : oid' = oid ∧ r.status = "NEW"
    · simp [hro, hc.1, hc.2]
    · have hnc : ¬ (r.order_id = oid ∧ r.status = "NEW") := by
        rw [hro]; exact hc
      simp [hnc, hc]

/-- One delivered message moves an order's status either not at all or
from `NEW` to `FINISHED`/`CANCELLED`. -/
theorem ordersHandle_status_step (db : OrdersDB)
    (m : BusMsg PaymentResultWire) (oid : Nat) :
    orderStatus (ordersHandle db m) oid = orderStatus db oid ∨
    (orderStatus db oid = some "NEW" ∧
      (orderStatus (ordersHandle db m) oid = some "FINISHED" ∨
       orderStatus (ordersHandle db m) oid = some "CANCELLED")) := by
  cases m with
  | garbled => exact Or.inl rfl
  | ok ev =>
    cases hei : ev.event_id with
    | none => left; simp [ordersHandle, hei]
    | some i =>
      cases heo : ev.order_id with
      | none => left; simp [ordersHandle, hei, heo]
      | some o =>
        rw [ordersHandle_ok db ev i o hei heo]
        by_cases hdup : i ∈ db.inbox
        · left; rw [if_pos hdup]
        · rw [if_neg hdup, orderStatus_update]
          have hbase : orderStatus { db with inbox := i :: db.inbox } oid =
            orderStatus db oid := rfl
          rw [hbase]
          cases horig : orderStatus db oid with
          | none => exact Or.inl rfl
          | some st =>
            by_cases hc : oid = o ∧ st = "NEW"
            · right
              refine ⟨by rw [hc.2], ?_⟩
              unfold resultNewStatus
              by_cases hs : ev.status = PRStatus.success
              · left; simp [hc, hs]
              · right; simp [hc, hs]
            · left; simp [hc]

/-- A non-`NEW` status is never changed by a delivered message. -/
theorem ordersHandle_status_absorb (db : OrdersDB)
    (m : BusMsg PaymentResultWire) (oid : Nat) (s : String)
    (h : orderStatus db oid = some s) (hs : s ≠ "NEW") :
    orderStatus (ordersHandle db m) oid = some s := by
  rcases ordersHandle_status_step db m oid with hstep | ⟨hnew, _⟩
  · rw [hstep, h]
  · rw [h] at hnew
    exact absurd (Option.some.inj hnew) hs

/-- A non-`NEW` status survives any sequence of delivered messages. -/
theorem ordersHandle_fold_absorb (ms : List (BusMsg PaymentResultWire))
    (db : OrdersDB) (oid : Nat) (s : String)
    (h : orderStatus db oid = some s) (hs : s ≠ "NEW") :
    orderStatus (ms.foldl ordersHandle db) oid = some s := by
  induction ms generalizing db with
  | nil => exact h
  | cons m t ih =>
    exact ih (ordersHandle db m) (ordersHandle_status_absorb db m oid s h hs)

/-- **C3.** The orders consumer computes the new status as FINISHED for
SUCCESS and CANCELLED for any other status; the update applies only where
the order's current status is NEW (and then sets exactly the computed
status); one delivery moves a status at most from NEW to
FINISHED/CANCELLED, so a status transitions at most once; and the terminal
states are absorbing under every sequence of deliveries. -/
theorem order_state_machine :
    (resultNewStatus PRStatus.success = "FINISHED" ∧
     ∀ s : PRStatus, s ≠ PRStatus.success → resultNewStatus s = "CANCELLED") ∧
    (∀ (db : OrdersDB) (oid : Nat) (s : String) (oid' : Nat),
       orderStatus db oid' ≠ some "NEW" →
       orderStatus (updateOrderStatusIfNew db oid s) oid' =
         orderStatus db oid') ∧
    (∀ (db : OrdersDB) (oid : Nat) (s : String),
       orderStatus db oid = some "NEW" →
       orderStatus (updateOrderStatusIfNew db oid s) oid = some s) ∧
    (∀ (db : OrdersDB) (m : BusMsg PaymentResultWire) (oid : Nat),
       orderStatus (ordersHandle db m) oid = orderStatus db oid ∨
       (orderStatus db oid = some "NEW" ∧
         (orderStatus (ordersHandle db m) oid = some "FINISHED" ∨
          orderStatus (ordersHandle db m) oid = some "CANCELLED"))) ∧
    (∀ (ms : List (BusMsg PaymentResultWire)) (db : OrdersDB) (oid : Nat)
       (s : String), orderStatus db oid = some s → s ≠ "NEW" →
       orderStatus (ms.foldl ordersHandle db) oid = some s) := by
  refine ⟨⟨rfl, ?_⟩, ?_, ?_, ordersHandle_status_step, ordersHandle_fold_absorb⟩
  · intro s hs
    unfold resultNewStatus
    rw [if_neg hs]
  · intro db oid s oid' hne
    rw [orderStatus_update]
    cases horig : orderStatus db oid' with
    | none => rfl
    | some st =>
      have : ¬ (oid' = oid ∧ st = "NEW") := by
        intro hc
        exact hne (by rw [horig, hc.2])
      simp [this]
  · intro db oid s hnew
    rw [orderStatus_update, hnew]
    simp

/-- Witness for C3: an order already CANCELLED stays CANCELLED across a
delivery sequence containing a SUCCESS result for it, and an order in NEW
is set to the computed status by the guarded update. -/
theorem order_state_machine_witness :
    orderStatus ([BusMsg.ok ⟨some 4, some 1, "u", PRStatus.success, ""⟩].foldl
      ordersHandle ⟨[⟨1, "u", 5, "d", "CANCELLED", 0, none⟩], [], [], 0⟩) 1 =
      some "CANCELLED" ∧
    orderStatus (updateOrderStatusIfNew
      ⟨[⟨1, "u", 5, "d", "NEW", 0, none⟩], [], [], 0⟩ 1 "FINISHED") 1 =
      some "FINISHED" := by
  constructor
  · exact order_state_machine.2.2.2.2
      [BusMsg.ok ⟨some 4, some 1, "u", PRStatus.success, ""⟩]
      ⟨[⟨1, "u", 5, "d", "CANCELLED", 0, none⟩], [], [], 0⟩ 1 "CANCELLED"
      (by decide) (by decide)
  · exact order_state_machine.2.2.1
      ⟨[⟨1, "u", 5, "d", "NEW", 0, none⟩], [], [], 0⟩ 1 "FINISHED" (by decide)

/-- In a list of accounts with distinct user ids, any member is the row
`find?` locates for its user id. -/
theorem find_account_row {l : List Account}
    (hnd : (l.map (fun a => a.user_id)).Nodup) {r : Account} (hr : r ∈ l) :
    l.find? (fun a => a.user_id = r.user_id) = some r := by
  induction l with
  | nil => cases hr
  | cons a t ih =>
    rcases List.mem_cons.mp hr with h | h
    · subst h
      exact List.find?_cons_of_pos _ (by simp)
    · have hne : ¬ (a.user_id = r.user_id) := by
        intro he
        have hmem : r.user_id ∈ t.map (fun a => a.user_id) :=
          List.mem_map_of_mem _ h
        rw [List.map_cons, List.nodup_cons] at hnd
        exact hnd.1 (he ▸ hmem)
      rw [List.find?_cons_of_neg _ (by simp [hne])]
      exact ih (by rw [List.map_cons, List.nodup_cons] at hnd; exact hnd.2) h

/-- Every payments-service step changes the accounts table in one of four
ways only: not at all; inserting a fresh zero-balance account; crediting a
positive amount to one user; or debiting one user an amount bounded by the
found row's balance. -/
theorem payStep_accounts (db : PaymentsDB) (c : PayCmd) :
    (payStep db c).accounts = db.accounts ∨
    (∃ u, ¬ accountExists db u ∧
      (payStep db c).accounts = ⟨u, 0⟩ :: db.accounts) ∨
    (∃ u a, 0 < a ∧ (payStep db c).accounts = db.accounts.map (fun r =>
        if r.user_id = u then { r with balance := r.balance + a } else r)) ∨
    (∃ u a acct, findAccount db u = some acct ∧ a ≤ acct.balance ∧
      (payStep db c).accounts = db.accounts.map (fun r =>
        if r.user_id = u then { r with balance := r.balance - a } else r)) := by
  cases c with
  | createAcctN u =>
    by_cases hu : u = ""
    · left; simp [payStep, createAccountNoKey, hu]
    · by_cases hex : accountExists db u
      · left; simp [payStep, createAccountNoKey, sqlCreateAccount, hu, hex]
      · right; left
        exact ⟨u, hex,
          by simp [payStep, createAccountNoKey, sqlCreateAccount, hu, hex]⟩
  | createAcctK u =>
    by_cases hu : u = ""
    · left; simp [payStep, createAccountKeyed, hu]
    · cases hfa : findAccount db u with
      | some a =>
        left; simp [payStep, createAccountKeyed, sqlCreateAccountIdempotent, hu, hfa]
      | none =>
        right; left
        refine ⟨u, ?_, by
          simp [payStep, createAccountKeyed, sqlCreateAccountIdempotent, hu, hfa]⟩
        unfold findAccount at hfa
        rw [List.find?_eq_none] at hfa
        rintro ⟨a, ha, he⟩
        exact hfa a ha (by simp [he])
  | topUpN u a =>
    by_cases hu : u = ""
    · left; simp [payStep, topUpNoKey, hu]
    · by_cases hamt : a ≤ 0
      · left; simp [payStep, topUpNoKey, hu, hamt]
      · cases hfa : findAccount db u with
        | none => left; simp [payStep, topUpNoKey, sqlTopUp, hu, hamt, hfa]
        | some acct =>
          right; right; left
          exact ⟨u, a, by omega,
            by simp [payStep, topUpNoKey, sqlTopUp, hu, hamt, hfa]⟩
  | topUpK u a k =>
    by_cases hu : u = ""
    · left; simp [payStep, topUpKeyed, hu]
    · by_cases hamt : a ≤ 0
      · left; simp [payStep, topUpKeyed, hu, hamt]
      · by_cases hkey : ∃ r ∈ db.topups, r.user_id = u ∧ r.idempotency_key = k
        · left
          cases hget : getTopupIdempotency db u k with
          | none =>
            simp [payStep, topUpKeyed, insertTopupIdempotency, hu, hamt, hkey, hget]
          | some row =>
            by_cases hmis : row.amount ≠ a <;>
              simp [payStep, topUpKeyed, insertTopupIdempotency, hu, hamt,
                hkey, hget, hmis]
        · cases hfa : findAccount
            { db with topups := ⟨u, k, a, 0⟩ :: db.topups } u with
          | none =>
            left
            simp [payStep, topUpKeyed, insertTopupIdempotency, sqlTopUp,
              hu, hamt, hkey, hfa]
          | some acct =>
            right; right; left
            refine ⟨u, a, by omega, ?_⟩
            simp [payStep, topUpKeyed, insertTopupIdempotency, sqlTopUp,
              setTopupIdempotencyBalance, hu, hamt, hkey, hfa]
  | consume m f t =>
    cases m with
    | garbled => left; rfl
    | ok ev =>
      cases hei : ev.event_id with
      | none => left; simp [payStep, payHandle, hei]
      | some i =>
        cases heo : ev.order_id with
        | none => left; simp [payStep, payHandle, hei, heo]
        | some o =>
          by_cases hval : ev.user_id = "" ∨ ev.amount ≤ 0
          · left; simp [payStep, payHandle, hei, heo, hval]
          · push_neg at hval
            rcases hq : tryDeductOnce { db with inbox := ⟨i, o⟩ :: db.inbox }
              o ev.user_id ev.amount with ⟨op, db2⟩
            have hstep : payStep db (.consume (.ok ev) f t) =
                payHandle db (.ok ev) f t := rfl
            rw [hstep, payHandle_ok db ev i o f t op db2 hei heo hval.1
              (by omega) hq]
            by_cases hdup : inboxHasP db i
            · left; rw [if_pos hdup]
            · rw [if_neg hdup]
              by_cases hop : op = 1
              · obtain ⟨acct, hfind, hbal, _, heq⟩ := tryDeductOnce_fst_one
                  { db with inbox := ⟨i, o⟩ :: db.inbox } o ev.user_id
                  ev.amount (by rw [hq]; exact hop)
                right; right; right
                refine ⟨ev.user_id, ev.amount, acct, hfind, hbal, ?_⟩
                have hdb2 : db2 = (tryDeductOnce
                  { db with inbox := ⟨i, o⟩ :: db.inbox } o ev.user_id
                  ev.amount).2 := by rw [hq]
                show db2.accounts = _
                rw [hdb2, heq]
              · left
                have hdb2 : db2 = { db with inbox := ⟨i, o⟩ :: db.inbox } := by
                  rw [show db2 = (tryDeductOnce
                    { db with inbox := ⟨i, o⟩ :: db.inbox } o ev.user_id
                    ev.amount).2 by rw [hq]]
                  exact tryDeductOnce_fst_ne_one _ o ev.user_id ev.amount
                    (by rw [hq]; exact hop)
                show db2.accounts = db.accounts
                rw [hdb2]
  | publish pubOk batch => left; rfl

/-- One payments-service step preserves the accounts primary key and the
balance non-negativity invariant. -/
theorem payStep_invariant (db : PaymentsDB) (c : PayCmd)
    (hwf : accountsWF db) (hnn : balancesNonneg db) :
    accountsWF (payStep db c) ∧ balancesNonneg (payStep db c) := by
  rcases payStep_accounts db c with h | ⟨u, hex, h⟩ | ⟨u, a, ha, h⟩ |
    ⟨u, a, acct, hfind, hbal, h⟩
  · unfold accountsWF balancesNonneg at *
    rw [h]
    exact ⟨hwf, hnn⟩
  · have hmem : u ∉ db.accounts.map (fun a => a.user_id) := by
      intro hm
      rcases List.mem_map.mp hm with ⟨r, hr, he⟩
      exact hex ⟨r, hr, he⟩
    constructor
    · unfold accountsWF at *
      rw [h, List.map_cons]
      exact List.nodup_cons.mpr ⟨hmem, hwf⟩
    · intro r hr
      rw [h] at hr
      rcases List.mem_cons.mp hr with he | hm
      · rw [he]
      · exact hnn r hm
  · have hkey : ∀ r : Account, ((fun r : Account =>
        if r.user_id = u then { r with balance := r.balance + a } else r) r).user_id
        = r.user_id := by
      intro r
      simp only
      split <;> rfl
    constructor
    · unfold accountsWF at *
      rw [h, List.map_map,
        show ((fun a : Account => a.user_id) ∘ (fun r : Account =>
          if r.user_id = u then { r with balance := r.balance + a } else r))
          = (fun a : Account => a.user_id) from funext fun r => hkey r]
      exact hwf
    · intro r' hr'
      rw [h] at hr'
      rcases List.mem_map.mp hr' with ⟨r, hr, he⟩
      rw [← he]
      have := hnn r hr
      split <;> simp <;> omega
  · have hkey : ∀ r : Account, ((fun r : Account =>
        if r.user_id = u then { r with balance := r.balance - a } else r) r).user_id
        = r.user_id := by
      intro r
      simp only
      split <;> rfl
    constructor
    · unfold accountsWF at *
      rw [h, List.map_map,
        show ((fun a : Account => a.user_id) ∘ (fun r : Account =>
          if r.user_id = u then { r with balance := r.balance - a } else r))
          = (fun a : Account => a.user_id) from funext fun r => hkey r]
      exact hwf
    · intro r' hr'
      rw [h] at hr'
      rcases List.mem_map.mp hr' with ⟨r, hr, he⟩
      rw [← he]
      by_cases hru : r.user_id = u
      · have hfr : db.accounts.find? (fun x => x.user_id = r.user_id) = some r :=
          find_account_row hwf hr
        rw [hru] at hfr
        unfold findAccount at hfind
        rw [hfind] at hfr
        have hracct : acct = r := Option.some.inj hfr
        rw [if_pos hru]
        simp only
        rw [← hracct]
        omega
      · rw [if_neg hru]
        exact hnn r hr

/-- **C4.** Starting from any committed state satisfying the accounts
primary key and `balance ≥ 0`, every sequence of payments-service steps —
create-account, top-up (validated `amount > 0`), and the consumer's
conditional debit — keeps every account balance ≥ 0 at every committed
state: the debit subtracts only under `balance ≥ amount` and top-up only
adds positive amounts. -/
theorem balance_nonneg_all_steps :
    ∀ (cmds : List PayCmd) (db : PaymentsDB),
      accountsWF db → balancesNonneg db →
      balancesNonneg (cmds.foldl payStep db) := by
  intro cmds
  induction cmds with
  | nil => exact fun db _ hnn => hnn
  | cons c t ih =>
    intro db hwf hnn
    obtain ⟨hwf', hnn'⟩ := payStep_invariant db c hwf hnn
    exact ih (payStep db c) hwf' hnn'

/-- Witness for C4: create an account, top it up by 50 under a key, then
consume a PaymentRequested debiting 30 — all balances stay ≥ 0. -/
theorem balance_nonneg_all_steps_witness :
    balancesNonneg ([PayCmd.createAcctN "u", PayCmd.topUpK "u" 50 "k",
      PayCmd.consume (.ok ⟨some 1, some 2, "u", 30⟩) 9 "t"].foldl payStep
      PaymentsDB.empty) :=
  balance_nonneg_all_steps _ PaymentsDB.empty (by decide) (by decide)

/-- No account row for the user means `findAccount` comes back empty. -/
theorem findAccount_eq_none_of_not_exists (db : PaymentsDB) (u : String)
    (h : ¬ accountExists db u) : findAccount db u = none := by
  unfold findAccount
  rw [List.find?_eq_none]
  intro a ha
  simp only [decide_eq_true_eq]
  exact fun he => h ⟨a, ha, he⟩

/-- No `(user_id, idempotency_key)` row means the lookup comes back
empty. -/
theorem getTopup_none_of_no_row (db : PaymentsDB) (u k : String)
    (h : ¬ ∃ r ∈ db.topups, r.user_id = u ∧ r.idempotency_key = k) :
    getTopupIdempotency db u k = none := by
  unfold getTopupIdempotency
  rw [List.find?_eq_none]
  intro r hr
  simp only [decide_eq_true_eq]
  exact fun he => h ⟨r, hr, he⟩

/-- A successful `(user_id, idempotency_key)` lookup exhibits a matching
row. -/
theorem getTopup_some_mem (db : PaymentsDB) (u k : String) (row : TopupRow)
    (h : getTopupIdempotency db u k = some row) :
    ∃ r ∈ db.topups, r.user_id = u ∧ r.idempotency_key = k := by
  refine ⟨row, List.mem_of_find?_eq_some h, ?_⟩
  have := List.find?_some h
  simpa using this

/-- Updating `balance_after` for a key matched by no row is the
identity. -/
theorem topups_set_fresh (l : List TopupRow) (u k : String) (bal : Int)
    (hno : ¬ ∃ r ∈ l, r.user_id = u ∧ r.idempotency_key = k) :
    l.map (fun r => if r.user_id = u ∧ r.idempotency_key = k
      then { r with balance_after := bal } else r) = l := by
  induction l with
  | nil => rfl
  | cons a t ih =>
    have hna : ¬ (a.user_id = u ∧ a.idempotency_key = k) := by
      intro hc
      exact hno ⟨a, by simp, hc⟩
    rw [List.map_cons, if_neg hna,
      ih (fun ⟨r, hr, hc⟩ => hno ⟨r, by simp [hr], hc⟩)]

/-- Keyed top-up, fresh key, existing account: the balance is credited,
the idempotency row records the new balance, and the new balance is
returned. -/
theorem topUpKeyed_fresh (db : PaymentsDB) (u k : String) (a : Int)
    (acct : Account) (hu : u ≠ "") (ha : 0 < a)
    (hfa : findAccount db u = some acct)
    (hno : ¬ ∃ r ∈ db.topups, r.user_id = u ∧ r.idempotency_key = k) :
    topUpKeyed db u a k = (.ok (acct.balance + a),
      { db with
        accounts := db.accounts.map (fun r =>
          if r.user_id = u then { r with balance := r.balance + a } else r),
        topups := ⟨u, k, a, acct.balance + a⟩ :: db.topups }) := by
  have hfa1 : findAccount { db with topups := ⟨u, k, a, 0⟩ :: db.topups } u
      = some acct := hfa
  simp only [topUpKeyed, if_neg hu, if_neg (by omega : ¬ a ≤ 0),
    insertTopupIdempotency, if_neg hno]
  simp only [sqlTopUp, hfa1]
  simp only [setTopupIdempotencyBalance]
  simp [topups_set_fresh db.topups u k _ hno]

/-- Keyed top-up, key already recorded with matching amount: the stored
`balance_after` is returned and the state is untouched. -/
theorem topUpKeyed_replay (db : PaymentsDB) (u k : String) (a : Int)
    (row : TopupRow) (hu : u ≠ "") (ha : 0 < a)
    (hget : getTopupIdempotency db u k = some row) (hamt : row.amount = a) :
    topUpKeyed db u a k = (.ok row.balance_after, db) := by
  have hkey := getTopup_some_mem db u k row hget
  simp only [topUpKeyed, if_neg hu, if_neg (by omega : ¬ a ≤ 0),
    insertTopupIdempotency, if_pos hkey]
  simp [hget, hamt]

/-- Keyed top-up against a missing account: `not_found`, full rollback. -/
theorem topUpKeyed_noacct (db : PaymentsDB) (u k : String) (a : Int)
    (hu : u ≠ "") (ha : 0 < a) (hacc : ¬ accountExists db u)
    (hno : ¬ ∃ r ∈ db.topups, r.user_id = u ∧ r.idempotency_key = k) :
    topUpKeyed db u a k = (.error .notFound, db) := by
  have hfa : findAccount { db with topups := ⟨u, k, a, 0⟩ :: db.topups } u
      = none := findAccount_eq_none_of_not_exists db u hacc
  simp only [topUpKeyed, if_neg hu, if_neg (by omega : ¬ a ≤ 0),
    insertTopupIdempotency, if_neg hno]
  simp [sqlTopUp, hfa]

/-- **C5.** For every keyed `TopUp(user_id, amount, key)`: on a fresh key
with an existing account the amount is credited and `balance_after` is
recorded and returned; on a duplicate key with matching amount, the stored
`balance_after` is returned with no state change; if the account does not
exist, the command fails `not_found` with no surviving idempotency row for
`(user_id, key)`, and a retry with the same key succeeds once the account
has been created. -/
theorem topup_idempotency_contract :
    (∀ (db : PaymentsDB) (u k : String) (a : Int) (acct : Account),
       u ≠ "" → 0 < a → findAccount db u = some acct →
       (¬ ∃ r ∈ db.topups, r.user_id = u ∧ r.idempotency_key = k) →
       topUpKeyed db u a k = (.ok (acct.balance + a),
         { db with
           accounts := db.accounts.map (fun r =>
             if r.user_id = u then { r with balance := r.balance + a } else r),
           topups := ⟨u, k, a, acct.balance + a⟩ :: db.topups })) ∧
    (∀ (db : PaymentsDB) (u k : String) (a : Int) (row : TopupRow),
       u ≠ "" → 0 < a → getTopupIdempotency db u k = some row →
       row.amount = a →
       topUpKeyed db u a k = (.ok row.balance_after, db)) ∧
    (∀ (db : PaymentsDB) (u k : String) (a : Int),
       u ≠ "" → 0 < a → ¬ accountExists db u →
       (¬ ∃ r ∈ db.topups, r.user_id = u ∧ r.idempotency_key = k) →
       topUpKeyed db u a k = (.error .notFound, db) ∧
       getTopupIdempotency (topUpKeyed db u a k).2 u k = none ∧
       (topUpKeyed (createAccountKeyed (topUpKeyed db u a k).2 u).2 u a k).1
         = .ok a) := by
  refine ⟨topUpKeyed_fresh, topUpKeyed_replay, ?_⟩
  intro db u k a hu ha hacc hno
  have hfail := topUpKeyed_noacct db u k a hu ha hacc hno
  refine ⟨hfail, ?_, ?_⟩
  · rw [hfail]
    exact getTopup_none_of_no_row db u k hno
  · rw [hfail]
    have hcreate : createAccountKeyed db u =
        (.ok ⟨u, 0⟩, { db with accounts := ⟨u, 0⟩ :: db.accounts }) := by
      simp [createAccountKeyed, sqlCreateAccountIdempotent,
        findAccount_eq_none_of_not_exists db u hacc, if_neg hu]
    rw [hcreate]
    have hfa : findAccount { db with accounts := ⟨u, 0⟩ :: db.accounts } u
        = some ⟨u, 0⟩ := by
      unfold findAccount
      exact List.find?_cons_of_pos _ (by simp)
    rw [topUpKeyed_fresh { db with accounts := ⟨u, 0⟩ :: db.accounts } u k a
      ⟨u, 0⟩ hu ha hfa hno]
    simp

/-- Witness for C5: top-up with a key against a missing account fails
`not_found`, leaves no idempotency row, and succeeds after the account is
created. -/
theorem topup_idempotency_contract_witness :
    topUpKeyed PaymentsDB.empty "u" 50 "k" = (.error .notFound, PaymentsDB.empty) ∧
    getTopupIdempotency (topUpKeyed PaymentsDB.empty "u" 50 "k").2 "u" "k" = none ∧
    (topUpKeyed (createAccountKeyed (topUpKeyed PaymentsDB.empty "u" 50 "k").2 "u").2
      "u" 50 "k").1 = .ok 50 :=
  topup_idempotency_contract.2.2 PaymentsDB.empty "u" "k" 50
    (by decide) (by decide) (by decide) (by decide)

/-- A successful `(user_id, idempotency_key)` order lookup exhibits a
matching row. -/
theorem getOrder_some_mem (db : OrdersDB) (u k : String) (row : OrderRow)
    (h : getOrderByIdempotency db u k = some row) : orderKeyTaken db u k := by
  refine ⟨row, List.mem_of_find?_eq_some h, ?_⟩
  have := List.find?_some h
  simpa using this

/-- Keyed create-order on a fresh key: the order row and exactly one
PaymentRequested outbox row commit together. -/
theorem createOrderKeyed_fresh (db : OrdersDB) (u : String) (a : Int)
    (d k : String) (fo fe now : Nat) (hu : u ≠ "") (ha : 0 < a)
    (hd : d ≠ "") (hkey : ¬ orderKeyTaken db u k) :
    createOrderKeyed db u a d k fo fe now =
      (.ok ⟨fo, u, a, d, "NEW", now⟩,
       { db with
         orders := ⟨fo, u, a, d, "NEW", now, some k⟩ :: db.orders,
         outbox := db.outbox ++ [⟨db.nextOutboxId,
           "payments.payment_requested.v1", fo,
           .paymentRequested ⟨fe, fo, u, a⟩, false, 0, none⟩],
         nextOutboxId := db.nextOutboxId + 1 }) := by
  simp only [createOrderKeyed, if_neg hu, if_neg (by omega : ¬ a ≤ 0),
    if_neg hd, sqlCreateOrderIdempotent, if_neg hkey]
  simp [insertOutboxO, respOfRow]

/-- Keyed create-order replay with matching parameters: the stored order
is returned and nothing (in particular no outbox row) is written. -/
theorem createOrderKeyed_replay (db : OrdersDB) (u : String) (a : Int)
    (d k : String) (fo fe now : Nat) (row : OrderRow) (hu : u ≠ "")
    (ha : 0 < a) (hd : d ≠ "")
    (hget : getOrderByIdempotency db u k = some row)
    (hamt : row.amount = a) (hdesc : row.description = d) :
    createOrderKeyed db u a d k fo fe now = (.ok (respOfRow row), db) := by
  have hkey := getOrder_some_mem db u k row hget
  simp only [createOrderKeyed, if_neg hu, if_neg (by omega : ¬ a ≤ 0),
    if_neg hd, sqlCreateOrderIdempotent, if_pos hkey]
  simp [hget, hamt, hdesc]

/-- **C6.** For every keyed CreateOrder: the first call with a fresh key
inserts the order and appends exactly one PaymentRequested outbox record
in the same transaction; a replay with matching amount and description
returns the stored order (hence the same `order_id`) without touching the
state, so exactly one PaymentRequested outbox record is ever appended for
that key. -/
theorem create_order_exactly_once :
    (∀ (db : OrdersDB) (u : String) (a : Int) (d k : String)
       (fo fe now : Nat),
       u ≠ "" → 0 < a → d ≠ "" → ¬ orderKeyTaken db u k →
       createOrderKeyed db u a d k fo fe now =
         (.ok ⟨fo, u, a, d, "NEW", now⟩,
          { db with
            orders := ⟨fo, u, a, d, "NEW", now, some k⟩ :: db.orders,
            outbox := db.outbox ++ [⟨db.nextOutboxId,
              "payments.payment_requested.v1", fo,
              .paymentRequested ⟨fe, fo, u, a⟩, false, 0, none⟩],
            nextOutboxId := db.nextOutboxId + 1 })) ∧
    (∀ (db : OrdersDB) (u : String) (a : Int) (d k : String)
       (fo fe now : Nat) (row : OrderRow),
       u ≠ "" → 0 < a → d ≠ "" →
       getOrderByIdempotency db u k = some row →
       row.amount = a → row.description = d →
       createOrderKeyed db u a d k fo fe now = (.ok (respOfRow row), db)) ∧
    (∀ (db : OrdersDB) (u : String) (a : Int) (d k : String)
       (fo fe now fo' fe' now' : Nat),
       u ≠ "" → 0 < a → d ≠ "" → ¬ orderKeyTaken db u k →
       createOrderKeyed (createOrderKeyed db u a d k fo fe now).2 u a d k
           fo' fe' now' =
         ((createOrderKeyed db u a d k fo fe now).1,
          (createOrderKeyed db u a d k fo fe now).2) ∧
       ((createOrderKeyed db u a d k fo fe now).2).outbox.length =
         db.outbox.length + 1) := by
  refine ⟨createOrderKeyed_fresh, createOrderKeyed_replay, ?_⟩
  intro db u a d k fo fe now fo' fe' now' hu ha hd hkey
  have hfresh := createOrderKeyed_fresh db u a d k fo fe now hu ha hd hkey
  rw [hfresh]
  have hget : getOrderByIdempotency
      { db with
        orders := ⟨fo, u, a, d, "NEW", now, some k⟩ :: db.orders,
        outbox := db.outbox ++ [⟨db.nextOutboxId,
          "payments.payment_requested.v1", fo,
          .paymentRequested ⟨fe, fo, u, a⟩, false, 0, none⟩],
        nextOutboxId := db.nextOutboxId + 1 } u k =
      some ⟨fo, u, a, d, "NEW", now, some k⟩ := by
    unfold getOrderByIdempotency
    exact List.find?_cons_of_pos _ (by simp)
  refine ⟨?_, by simp⟩
  rw [createOrderKeyed_replay _ u a d k fo' fe' now'
    ⟨fo, u, a, d, "NEW", now, some k⟩ hu ha hd hget rfl rfl]
  rfl

/-- Witness for C6: first keyed create-order appends the order and one
outbox record; the immediate replay returns the same response and leaves
the state untouched. -/
theorem create_order_exactly_once_witness :
    createOrderKeyed (createOrderKeyed OrdersDB.empty "u" 5 "book" "k"
        1 2 3).2 "u" 5 "book" "k" 7 8 9 =
      ((createOrderKeyed OrdersDB.empty "u" 5 "book" "k" 1 2 3).1,
       (createOrderKeyed OrdersDB.empty "u" 5 "book" "k" 1 2 3).2) ∧
    ((createOrderKeyed OrdersDB.empty "u" 5 "book" "k" 1 2 3).2).outbox.length =
      OrdersDB.empty.outbox.length + 1 :=
  create_order_exactly_once.2.2 OrdersDB.empty "u" 5 "book" "k" 1 2 3 7 8 9
    (by decide) (by decide) (by decide) (by decide)

/-- **C8.** A keyed mutating command whose idempotency key is already
recorded with different parameters is rejected with `failed_precondition`
and the transaction rolls back: the returned state is exactly the prior
state — no balance, order, idempotency or outbox change.  Top-up compares
the amount; create-order compares amount and description. -/
theorem idem_mismatch_rejected :
    (∀ (db : PaymentsDB) (u k : String) (a : Int) (row : TopupRow),
       u ≠ "" → 0 < a → getTopupIdempotency db u k = some row →
       row.amount ≠ a →
       topUpKeyed db u a k = (.error .failedPrecondition, db)) ∧
    (∀ (db : OrdersDB) (u : String) (a : Int) (d k : String)
       (fo fe now : Nat) (row : OrderRow),
       u ≠ "" → 0 < a → d ≠ "" →
       getOrderByIdempotency db u k = some row →
       (row.amount ≠ a ∨ row.description ≠ d) →
       createOrderKeyed db u a d k fo fe now =
         (.error .failedPrecondition, db)) := by
  constructor
  · intro db u k a row hu ha hget hmis
    have hkey := getTopup_some_mem db u k row hget
    simp only [topUpKeyed, if_neg hu, if_neg (by omega : ¬ a ≤ 0),
      insertTopupIdempotency, if_pos hkey]
    simp [hget, hmis]
  · intro db u a d k fo fe now row hu ha hd hget hmis
    have hkey := getOrder_some_mem db u k row hget
    simp only [createOrderKeyed, if_neg hu, if_neg (by omega : ¬ a ≤ 0),
      if_neg hd, sqlCreateOrderIdempotent, if_pos hkey]
    simp only [hget]
    rw [if_pos hmis]

/-- Witness for C8: replaying a key with a different amount is rejected on
both services and leaves the state exactly as it was. -/
theorem idem_mismatch_rejected_witness :
    topUpKeyed ⟨[⟨"u", 100⟩], [], [⟨"u", "k", 50, 150⟩], [], [], 0⟩ "u" 51 "k" =
      (.error .failedPrecondition,
       ⟨[⟨"u", 100⟩], [], [⟨"u", "k", 50, 150⟩], [], [], 0⟩) ∧
    createOrderKeyed ⟨[⟨1, "u", 5, "book", "NEW", 0, some "k"⟩], [], [], 1⟩
        "u" 6 "book" "k" 7 8 9 =
      (.error .failedPrecondition,
       ⟨[⟨1, "u", 5, "book", "NEW", 0, some "k"⟩], [], [], 1⟩) :=
  ⟨idem_mismatch_rejected.1 ⟨[⟨"u", 100⟩], [], [⟨"u", "k", 50, 150⟩], [], [], 0⟩
     "u" "k" 51 ⟨"u", "k", 50, 150⟩ (by decide) (by decide) (by decide) (by decide),
   idem_mismatch_rejected.2 ⟨[⟨1, "u", 5, "book", "NEW", 0, some "k"⟩], [], [], 1⟩
     "u" 6 "book" "k" 7 8 9 ⟨1, "u", 5, "book", "NEW", 0, some "k"⟩
     (by decide) (by decide) (by decide) (by decide) (by decide)⟩

/-- **C9 (amended).** Messages that fail to deserialize, or fail the
structural validation the receiving consumer actually performs, are
absorbed: the handler returns success with no database side effect.  The
payments consumer validates event_id/order_id as UUIDs, non-empty user_id
and positive amount; the orders consumer validates only the two UUID
fields — it performs no user_id (or amount) validation, so an
otherwise-valid PaymentResult with an empty user_id is processed normally
(see the counterexample). -/
theorem poison_absorbed :
    (∀ (db : PaymentsDB) (fresh : Nat) (topic : String),
       payHandle db .garbled fresh topic = db) ∧
    (∀ (db : PaymentsDB) (ev : PaymentRequestedWire) (fresh : Nat)
       (topic : String),
       (ev.event_id = none ∨ ev.order_id = none ∨ ev.user_id = "" ∨
        ev.amount ≤ 0) →
       payHandle db (.ok ev) fresh topic = db) ∧
    (∀ (db : OrdersDB), ordersHandle db .garbled = db) ∧
    (∀ (db : OrdersDB) (ev : PaymentResultWire),
       (ev.event_id = none ∨ ev.order_id = none) →
       ordersHandle db (.ok ev) = db) := by
  refine ⟨fun _ _ _ => rfl, ?_, fun _ => rfl, ?_⟩
  · intro db ev fresh topic h
    cases hei : ev.event_id with
    | none => simp [payHandle, hei]
    | some i =>
      cases heo : ev.order_id with
      | none => simp [payHandle, hei, heo]
      | some o =>
        rcases h with h | h | h | h
        · rw [h] at hei; cases hei
        · rw [h] at heo; cases heo
        · simp [payHandle, hei, heo, h]
        · simp [payHandle, hei, heo, h]
  · intro db ev h
    cases hei : ev.event_id with
    | none => simp [ordersHandle, hei]
    | some i =>
      cases heo : ev.order_id with
      | none => simp [ordersHandle, hei, heo]
      | some o =>
        rcases h with h | h
        · rw [h] at hei; cases hei
        · rw [h] at heo; cases heo

/-- Witness for C9 (amended): a payments message with non-positive amount
and an orders message with a non-UUID order id are both absorbed without
side effects. -/
theorem poison_absorbed_witness :
    payHandle ⟨[⟨"u", 3⟩], [], [], [], [], 0⟩
      (.ok ⟨some 1, some 2, "u", 0⟩) 9 "t" = ⟨[⟨"u", 3⟩], [], [], [], [], 0⟩ ∧
    ordersHandle ⟨[⟨1, "u", 5, "d", "NEW", 0, none⟩], [], [], 0⟩
      (.ok ⟨some 4, none, "u", .success, ""⟩) =
      ⟨[⟨1, "u", 5, "d", "NEW", 0, none⟩], [], [], 0⟩ :=
  ⟨poison_absorbed.2.1 ⟨[⟨"u", 3⟩], [], [], [], [], 0⟩ ⟨some 1, some 2, "u", 0⟩
     9 "t" (by decide),
   poison_absorbed.2.2.2 ⟨[⟨1, "u", 5, "d", "NEW", 0, none⟩], [], [], 0⟩
     ⟨some 4, none, "u", .success, ""⟩ (by decide)⟩

/-- Counterexample to C9 as stated: a PaymentResult with valid UUIDs but
an **empty user_id** — structurally invalid per the claim — is *not*
absorbed by the orders consumer: it inserts the inbox row and moves the
NEW order to FINISHED, a database side effect. -/
theorem poison_empty_user_processed :
    ordersHandle ⟨[⟨1, "u", 5, "d", "NEW", 0, none⟩], [], [], 0⟩
      (.ok ⟨some 4, some 1, "", .success, ""⟩) ≠
    ⟨[⟨1, "u", 5, "d", "NEW", 0, none⟩], [], [], 0⟩ := by decide

/-- `MarkOutboxSent` as seen through a lookup by id. -/
theorem rowById_markSent (rows : List OutboxRow) (i j : Nat) :
    rowById (markOutboxSent rows j) i =
      (rowById rows i).map (fun r =>
        if r.id = j then { r with sent := true } else r) := by
  unfold rowById markOutboxSent
  rw [List.find?_map]
  have hpg : ((fun r : OutboxRow => decide (r.id = i)) ∘ (fun r =>
      if r.id = j then { r with sent := true } else r)) =
      (fun r : OutboxRow => decide (r.id = i)) := by
    funext r
    have hid : (if r.id = j then { r with sent := true } else r).id = r.id := by
      split <;> rfl
    simp [hid]
  rw [hpg]

/-- `MarkOutboxAttemptFailed` as seen through a lookup by id. -/
theorem rowById_markFailed (rows : List OutboxRow) (i j : Nat) (e : String) :
    rowById (markOutboxAttemptFailed rows j e) i =
      (rowById rows i).map (fun r =>
        if r.id = j
        then { r with attempts := r.attempts + 1, lastError := some e }
        else r) := by
  unfold rowById markOutboxAttemptFailed
  rw [List.find?_map]
  have hpg : ((fun r : OutboxRow => decide (r.id = i)) ∘ (fun r =>
      if r.id = j
      then { r with attempts := r.attempts + 1, lastError := some e }
      else r)) = (fun r : OutboxRow => decide (r.id = i)) := by
    funext r
    have hid : (if r.id = j
        then { r with attempts := r.attempts + 1, lastError := some e }
        else r).id = r.id := by
      split <;> rfl
    simp [hid]
  rw [hpg]

/-- Processing one batch row leaves rows with other ids untouched. -/
theorem rowById_publishStep_ne (pubOk : Nat → Bool) (acc : List OutboxRow)
    (b : OutboxRow) (i : Nat) (hne : b.id ≠ i) :
    rowById (publishStep pubOk acc b) i = rowById acc i := by
  unfold publishStep
  split
  · rw [rowById_markSent]
    cases hf : rowById acc i with
    | none => rfl
    | some row =>
      have hri : row.id = i := by simpa using List.find?_some hf
      simp [hri, Ne.symm hne]
  · rw [rowById_markFailed]
    cases hf : rowById acc i with
    | none => rfl
    | some row =>
      have hri : row.id = i := by simpa using List.find?_some hf
      simp [hri, Ne.symm hne]

/-- A whole batch pass leaves rows whose id is outside the batch
untouched. -/
theorem foldl_publishStep_not_mem (pubOk : Nat → Bool)
    (L : List OutboxRow) (acc : List OutboxRow) (i : Nat)
    (h : ∀ r ∈ L, r.id ≠ i) :
    rowById (L.foldl (publishStep pubOk) acc) i = rowById acc i := by
  induction L generalizing acc with
  | nil => rfl
  | cons b L ih =>
    rw [List.foldl_cons, ih _ (fun r hr => h r (by simp [hr])),
      rowById_publishStep_ne pubOk acc b i (h b (by simp))]

/-- A whole batch pass applies exactly the per-row outcome to each batch
row (batch ids distinct). -/
theorem foldl_publishStep_mem (pubOk : Nat → Bool) (L : List OutboxRow)
    (acc : List OutboxRow)
    (hnd : (L.map (fun r => r.id)).Nodup) (r : OutboxRow) (hr : r ∈ L) :
    rowById (L.foldl (publishStep pubOk) acc) r.id =
      (rowById acc r.id).map (fun row =>
        if pubOk r.id then { row with sent := true }
        else { row with attempts := row.attempts + 1, lastError := some "publish failed" }) := by
  induction L generalizing acc with
  | nil => cases hr
  | cons b L ih =>
    rw [List.foldl_cons]
    rcases List.mem_cons.mp hr with he | hm
    · subst he
      have hnotin : ∀ x ∈ L, x.id ≠ r.id := by
        intro x hx heq
        rw [List.map_cons, List.nodup_cons] at hnd
        exact hnd.1 (heq ▸ List.mem_map_of_mem _ hx)
      rw [foldl_publishStep_not_mem pubOk L _ r.id hnotin]
      unfold publishStep
      by_cases hpub : pubOk r.id
      · rw [if_pos hpub, rowById_markSent]
        cases hf : rowById acc r.id with
        | none => rfl
        | some row =>
          have hri : row.id = r.id := by simpa using List.find?_some hf
          simp [hri, hpub]
      · rw [if_neg hpub, rowById_markFailed]
        cases hf : rowById acc r.id with
        | none => rfl
        | some row =>
          have hri : row.id = r.id := by simpa using List.find?_some hf
          simp [hri, hpub]
    · have hbne : b.id ≠ r.id := by
        rw [List.map_cons, List.nodup_cons] at hnd
        exact fun he => hnd.1 (he ▸ List.mem_map_of_mem _ hm)
      rw [ih _ (by rw [List.map_cons, List.nodup_cons] at hnd; exact hnd.2) hm,
        rowById_publishStep_ne pubOk acc b r.id hbne]

/-- With distinct ids, a member row is what its id lookup returns. -/
theorem rowById_of_mem {rows : List OutboxRow}
    (hnd : (rows.map (fun r => r.id)).Nodup) {r : OutboxRow}
    (hr : r ∈ rows) : rowById rows r.id = some r := by
  induction rows with
  | nil => cases hr
  | cons a t ih =>
    rcases List.mem_cons.mp hr with h | h
    · subst h
      exact List.find?_cons_of_pos _ (by simp)
    · have hne : ¬ (a.id = r.id) := by
        intro he
        rw [List.map_cons, List.nodup_cons] at hnd
        exact hnd.1 (he ▸ List.mem_map_of_mem _ h)
      rw [rowById, List.find?_cons_of_neg _ (by simp [hne])]
      exact ih (by rw [List.map_cons, List.nodup_cons] at hnd; exact hnd.2) h

/-- The locked batch is a sublist of the outbox. -/
theorem lockUnsent_sublist (rows : List OutboxRow) (batch : Nat) :
    (lockUnsentOutbox rows batch).Sublist rows :=
  (List.take_sublist _ _).trans (List.filter_sublist _)

/-- Every locked row is unsent. -/
theorem lockUnsent_unsent (rows : List OutboxRow) (batch : Nat)
    (r : OutboxRow) (hr : r ∈ lockUnsentOutbox rows batch) :
    r.sent = false := by
  unfold lockUnsentOutbox at hr
  have h1 : r ∈ rows.filter (fun r => r.sent = false) :=
    List.take_subset _ _ hr
  simpa using List.of_mem_filter h1

/-- **C10.** In every publisher pass over a batch of locked unsent rows
(outbox ids distinct, as guaranteed by the monotonic id): every batch
row gets its own outcome applied regardless of the other rows' publish
results — a failed publish records `attempts + 1` and `last_error` and
leaves the row unsent for the next tick, a successful publish sets
`sent_at`; rows outside the batch are untouched; and the committed pass
never marks a row sent unless its publish succeeded. -/
theorem outbox_publish_pass (db : OrdersDB) (pubOk : Nat → Bool)
    (batch : Nat) (hnd : (db.outbox.map (fun r => r.id)).Nodup) :
    (∀ r ∈ lockUnsentOutbox db.outbox batch,
      r.sent = false ∧
      (pubOk r.id = true →
        rowById (publishOnce db pubOk batch).outbox r.id =
          some { r with sent := true }) ∧
      (pubOk r.id = false →
        rowById (publishOnce db pubOk batch).outbox r.id =
          some { r with attempts := r.attempts + 1, lastError := some "publish failed" } ∧
        ({ r with attempts := r.attempts + 1, lastError := some "publish failed" } : OutboxRow).sent = r.sent)) ∧
    (∀ i : Nat, (∀ r ∈ lockUnsentOutbox db.outbox batch, r.id ≠ i) →
      rowById (publishOnce db pubOk batch).outbox i = rowById db.outbox i) := by
  have hsub := lockUnsent_sublist db.outbox batch
  have hndL : ((lockUnsentOutbox db.outbox batch).map (fun r => r.id)).Nodup :=
    (hsub.map _).nodup hnd
  constructor
  · intro r hr
    have hmem : r ∈ db.outbox := hsub.subset hr
    have horig : rowById db.outbox r.id = some r := rowById_of_mem hnd hmem
    have hfold : rowById (publishOnce db pubOk batch).outbox r.id =
        (rowById db.outbox r.id).map (fun row =>
          if pubOk r.id then { row with sent := true }
          else { row with attempts := row.attempts + 1, lastError := some "publish failed" }) :=
      foldl_publishStep_mem pubOk _ _ hndL r hr
    refine ⟨lockUnsent_unsent db.outbox batch r hr, ?_, ?_⟩
    · intro hpub
      rw [hfold, horig]
      simp [hpub]
    · intro hpub
      rw [hfold, horig]
      simp [hpub]
  · intro i hni
    exact foldl_publishStep_not_mem pubOk _ _ i hni

/-- Witness for C10: two unsent rows; the first row's publish fails (its
attempt is recorded, it stays unsent) and the pass still publishes and
marks the second row sent. -/
theorem outbox_publish_pass_witness :
    rowById (publishOnce ⟨[], [],
      [⟨0, "t", 5, .paymentRequested ⟨1, 5, "u", 2⟩, false, 0, none⟩,
       ⟨1, "t", 6, .paymentRequested ⟨2, 6, "u", 3⟩, false, 0, none⟩], 2⟩
      (fun i => decide (i = 1)) 2).outbox 0 =
      some ⟨0, "t", 5, .paymentRequested ⟨1, 5, "u", 2⟩, false, 1,
        some "publish failed"⟩ ∧
    rowById (publishOnce ⟨[], [],
      [⟨0, "t", 5, .paymentRequested ⟨1, 5, "u", 2⟩, false, 0, none⟩,
       ⟨1, "t", 6, .paymentRequested ⟨2, 6, "u", 3⟩, false, 0, none⟩], 2⟩
      (fun i => decide (i = 1)) 2).outbox 1 =
      some ⟨1, "t", 6, .paymentRequested ⟨2, 6, "u", 3⟩, true, 0, none⟩ := by
  have h := outbox_publish_pass ⟨[], [],
    [⟨0, "t", 5, .paymentRequested ⟨1, 5, "u", 2⟩, false, 0, none⟩,
     ⟨1, "t", 6, .paymentRequested ⟨2, 6, "u", 3⟩, false, 0, none⟩], 2⟩
    (fun i => decide (i = 1)) 2 (by decide)
  constructor
  · have h0 := h.1 ⟨0, "t", 5, .paymentRequested ⟨1, 5, "u", 2⟩, false, 0, none⟩
      (by decide)
    exact (h0.2.2 (by decide)).1
  · have h1 := h.1 ⟨1, "t", 6, .paymentRequested ⟨2, 6, "u", 3⟩, false, 0, none⟩
      (by decide)
    exact h1.2.1 (by decide)

theorem createAccountNoKey_topups (db : PaymentsDB) (u : String) :
    ((createAccountNoKey db u).2).topups = db.topups := by
  unfold createAccountNoKey sqlCreateAccount
  by_cases hu : u = ""
  · simp [hu]
  · by_cases hex : accountExists db u <;> simp [hu, hex]

theorem createAccountKeyed_topups (db : PaymentsDB) (u : String) :
    ((createAccountKeyed db u).2).topups = db.topups := by
  unfold createAccountKeyed sqlCreateAccountIdempotent
  by_cases hu : u = ""
  · simp [hu]
  · cases hfa : findAccount db u <;> simp [hu, hfa]

theorem topUpNoKey_topups (db : PaymentsDB) (u : String) (a : Int) :
    ((topUpNoKey db u a).2).topups = db.topups := by
  unfold topUpNoKey sqlTopUp
  by_cases hu : u = ""
  · simp [hu]
  · by_cases ha : a ≤ 0
    · simp [hu, ha]
    · cases hfa : findAccount db u <;> simp [hu, ha, hfa]

theorem payHandle_topups (db : PaymentsDB) (m : BusMsg PaymentRequestedWire)
    (f : Nat) (t : String) : (payHandle db m f t).topups = db.topups := by
  cases m with
  | garbled => rfl
  | ok ev =>
    cases hei : ev.event_id with
    | none => simp [payHandle, hei]
    | some i =>
      cases heo : ev.order_id with
      | none => simp [payHandle, hei, heo]
      | some o =>
        by_cases hval : ev.user_id = "" ∨ ev.amount ≤ 0
        · simp [payHandle, hei, heo, hval]
        · push_neg at hval
          rcases hq : tryDeductOnce { db with inbox := ⟨i, o⟩ :: db.inbox } o
            ev.user_id ev.amount with ⟨op, db2⟩
          rw [payHandle_ok db ev i o f t op db2 hei heo hval.1 (by omega) hq]
          by_cases hdup : inboxHasP db i
          · rw [if_pos hdup]
          · rw [if_neg hdup]
            show db2.topups = db.topups
            rw [show db2 = (tryDeductOnce { db with inbox := ⟨i, o⟩ :: db.inbox }
              o ev.user_id ev.amount).2 by rw [hq], tryDeductOnce_topups]

/-- Setting `balance_after` under one key does not move or change the row
stored under a different key. -/
theorem getTopup_after_set_ne (db : PaymentsDB) (uw kw : String) (bal : Int)
    (u k : String) (hne : ¬ (u = uw ∧ k = kw)) :
    getTopupIdempotency (setTopupIdempotencyBalance db uw kw bal) u k =
      getTopupIdempotency db u k := by
  unfold getTopupIdempotency setTopupIdempotencyBalance
  simp only
  rw [List.find?_map]
  have hpg : ((fun r : TopupRow => decide (r.user_id = u ∧ r.idempotency_key = k)) ∘
      (fun r => if r.user_id = uw ∧ r.idempotency_key = kw
        then { r with balance_after := bal } else r)) =
      (fun r : TopupRow => decide (r.user_id = u ∧ r.idempotency_key = k)) := by
    funext r
    have h1 : (if r.user_id = uw ∧ r.idempotency_key = kw
        then { r with balance_after := bal } else r).user_id = r.user_id := by
      split <;> rfl
    have h2 : (if r.user_id = uw ∧ r.idempotency_key = kw
        then { r with balance_after := bal } else r).idempotency_key =
        r.idempotency_key := by
      split <;> rfl
    simp [h1, h2]
  rw [hpg]
  cases hf : db.topups.find?
      (fun r => decide (r.user_id = u ∧ r.idempotency_key = k)) with
  | none => rfl
  | some row =>
    have hrow : row.user_id = u ∧ row.idempotency_key = k := by
      simpa using List.find?_some hf
    have hnm : ¬ (row.user_id = uw ∧ row.idempotency_key = kw) := by
      intro hc
      exact hne ⟨hrow.1.symm.trans hc.1, hrow.2.symm.trans hc.2⟩
    simp [hnm]

/-- A keyed top-up under one key never disturbs the idempotency row stored
under another key (nor under the same key). -/
theorem topUpKeyed_preserves_row (db : PaymentsDB) (uw kw : String)
    (aw : Int) (u k : String) (row : TopupRow)
    (h : getTopupIdempotency db u k = some row) :
    getTopupIdempotency ((topUpKeyed db uw aw kw).2) u k = some row := by
  by_cases huw : uw = ""
  · simpa [topUpKeyed, huw] using h
  by_cases haw : aw ≤ 0
  · simpa [topUpKeyed, huw, haw] using h
  by_cases hkeyw : ∃ r ∈ db.topups, r.user_id = uw ∧ r.idempotency_key = kw
  · simp only [topUpKeyed, if_neg huw, if_neg haw, insertTopupIdempotency,
      if_pos hkeyw]
    cases hget : getTopupIdempotency db uw kw with
    | none => simpa [hget] using h
    | some roww =>
      by_cases hmis : roww.amount ≠ aw <;> simpa [hget, hmis] using h
  · have hne : ¬ (u = uw ∧ k = kw) := by
      intro hc
      obtain ⟨r, hr, hru, hrk⟩ := getTopup_some_mem db u k row h
      exact hkeyw ⟨r, hr, by rw [hru, hc.1], by rw [hrk, hc.2]⟩
    simp only [topUpKeyed, if_neg huw, if_neg haw, insertTopupIdempotency,
      if_neg hkeyw]
    cases hfa : findAccount { db with topups := ⟨uw, kw, aw, 0⟩ :: db.topups }
        uw with
    | none => simpa [sqlTopUp, hfa] using h
    | some acct =>
      simp only [sqlTopUp, hfa]
      rw [if_neg (show ¬ (1 : Nat) = 0 by decide)]
      rw [getTopup_after_set_ne _ uw kw _ u k hne]
      unfold getTopupIdempotency at h ⊢
      simp only
      rw [List.find?_cons_of_neg _ (by
        simp only [decide_eq_true_eq, not_and]
        intro h1 h2
        exact absurd ⟨h1.symm, h2.symm⟩ hne)]
      exact h

/-- No payments-service step disturbs a stored top-up idempotency row. -/
theorem payStep_topup_row (db : PaymentsDB) (c : PayCmd) (u k : String)
    (row : TopupRow) (h : getTopupIdempotency db u k = some row) :
    getTopupIdempotency (payStep db c) u k = some row := by
  have hro : ∀ db' : PaymentsDB, db'.topups = db.topups →
      getTopupIdempotency db' u k = some row := by
    intro db' he
    unfold getTopupIdempotency at h ⊢
    rw [he]
    exact h
  cases c with
  | createAcctN uw => exact hro _ (createAccountNoKey_topups db uw)
  | createAcctK uw => exact hro _ (createAccountKeyed_topups db uw)
  | topUpN uw aw => exact hro _ (topUpNoKey_topups db uw aw)
  | topUpK uw aw kw => exact topUpKeyed_preserves_row db uw kw aw u k row h
  | consume m f t => exact hro _ (payHandle_topups db m f t)
  | publish pubOk batch => exact hro _ rfl

/-- A stored top-up idempotency row survives any sequence of
payments-service steps. -/
theorem foldl_payStep_topup_row (cmds : List PayCmd) (db : PaymentsDB)
    (u k : String) (row : TopupRow)
    (h : getTopupIdempotency db u k = some row) :
    getTopupIdempotency (cmds.foldl payStep db) u k = some row := by
  induction cmds generalizing db with
  | nil => exact h
  | cons c t ih => exact ih (payStep db c) (payStep_topup_row db c u k row h)

/-- After a keyed top-up returns `balance_after = b`, the idempotency row
for that key stores amount `a` and `balance_after = b`. -/
theorem topUpKeyed_ok_row (db : PaymentsDB) (u k : String) (a b : Int)
    (hu : u ≠ "") (ha : 0 < a) (h : (topUpKeyed db u a k).1 = .ok b) :
    ∃ row : TopupRow,
      getTopupIdempotency ((topUpKeyed db u a k).2) u k = some row ∧
      row.amount = a ∧ row.balance_after = b := by
  have ha' : ¬ a ≤ 0 := by omega
  by_cases hkey : ∃ r ∈ db.topups, r.user_id = u ∧ r.idempotency_key = k
  · cases hget : getTopupIdempotency db u k with
    | none =>
      simp [topUpKeyed, insertTopupIdempotency, hu, ha', hkey, hget] at h
    | some row =>
      by_cases hmis : row.amount ≠ a
      · simp [topUpKeyed, insertTopupIdempotency, hu, ha', hkey, hget, hmis] at h
      · push_neg at hmis
        refine ⟨row, ?_, hmis, ?_⟩
        · simp [topUpKeyed, insertTopupIdempotency, hu, ha', hkey, hget, hmis]
        · simp [topUpKeyed, insertTopupIdempotency, hu, ha', hkey, hget, hmis] at h
          omega
  · cases hfa : findAccount { db with topups := ⟨u, k, a, 0⟩ :: db.topups }
        u with
    | none =>
      simp [topUpKeyed, insertTopupIdempotency, hu, ha', hkey, sqlTopUp, hfa] at h
    | some acct =>
      refine ⟨⟨u, k, a, acct.balance + a⟩, ?_, rfl, ?_⟩
      · simp only [topUpKeyed, if_neg hu, if_neg ha',
          insertTopupIdempotency, if_neg hkey]
        simp only [sqlTopUp, hfa]
        rw [if_neg (show ¬ (1 : Nat) = 0 by decide)]
        unfold getTopupIdempotency setTopupIdempotencyBalance
        simp only [List.map_cons]
        rw [List.find?_cons_of_pos _ (by simp)]
        simp
      · simp [topUpKeyed, insertTopupIdempotency, hu, ha', hkey, sqlTopUp, hfa] at h
        show acct.balance + a = b
        omega

/-- The guarded status update moves a stored order row only in its
`status` field and never moves it away from its key. -/
theorem getOrder_update_status (db : OrdersDB) (o : Nat) (ns : String)
    (u k : String) (row : OrderRow)
    (h : getOrderByIdempotency db u k = some row) :
    ∃ s', getOrderByIdempotency (updateOrderStatusIfNew db o ns) u k =
      some { row with status := s' } := by
  unfold getOrderByIdempotency at h
  unfold getOrderByIdempotency updateOrderStatusIfNew
  simp only
  rw [List.find?_map]
  have hpg : ((fun r : OrderRow =>
      decide (r.user_id = u ∧ r.idempotency_key = some k)) ∘ (fun r =>
      if r.order_id = o ∧ r.status = "NEW" then { r with status := ns }
      else r)) = (fun r : OrderRow =>
      decide (r.user_id = u ∧ r.idempotency_key = some k)) := by
    funext r
    have h1 : (if r.order_id = o ∧ r.status = "NEW"
        then { r with status := ns } else r).user_id = r.user_id := by
      split <;> rfl
    have h2 : (if r.order_id = o ∧ r.status = "NEW"
        then { r with status := ns } else r).idempotency_key =
        r.idempotency_key := by
      split <;> rfl
    simp [h1, h2]
  rw [hpg, h]
  by_cases hc : row.order_id = o ∧ row.status = "NEW"
  · exact ⟨ns, by simp [hc]⟩
  · exact ⟨row.status, by rw [Option.map_some', if_neg hc]⟩

theorem createOrderNoKey_preserves (db : OrdersDB) (uw : String) (aw : Int)
    (dw : String) (fo fe now : Nat) (u k : String) (row : OrderRow)
    (h : getOrderByIdempotency db u k = some row) :
    getOrderByIdempotency ((createOrderNoKey db uw aw dw fo fe now).2) u k =
      some row := by
  by_cases huw : uw = ""
  · simpa [createOrderNoKey, huw] using h
  by_cases haw : aw ≤ 0
  · simpa [createOrderNoKey, huw, haw] using h
  by_cases hdw : dw = ""
  · simpa [createOrderNoKey, huw, haw, hdw] using h
  simp only [createOrderNoKey, if_neg huw, if_neg haw, if_neg hdw,
    sqlCreateOrder, insertOutboxO]
  unfold getOrderByIdempotency at h ⊢
  simp only
  rw [List.find?_cons_of_neg _ (by simp)]
  exact h

theorem createOrderKeyed_preserves (db : OrdersDB) (uw : String) (aw : Int)
    (dw kw : String) (fo fe now : Nat) (u k : String) (row : OrderRow)
    (h : getOrderByIdempotency db u k = some row) :
    getOrderByIdempotency ((createOrderKeyed db uw aw dw kw fo fe now).2)
      u k = some row := by
  by_cases huw : uw = ""
  · simpa [createOrderKeyed, huw] using h
  by_cases haw : aw ≤ 0
  · simpa [createOrderKeyed, huw, haw] using h
  by_cases hdw : dw = ""
  · simpa [createOrderKeyed, huw, haw, hdw] using h
  by_cases hkeyw : orderKeyTaken db uw kw
  · simp only [createOrderKeyed, if_neg huw, if_neg haw, if_neg hdw,
      sqlCreateOrderIdempotent, if_pos hkeyw]
    cases hget' : getOrderByIdempotency db uw kw with
    | none => simpa [hget'] using h
    | some roww =>
      by_cases hmis : roww.amount ≠ aw ∨ roww.description ≠ dw <;>
        simpa [hget', hmis] using h
  · have hne : ¬ (u = uw ∧ k = kw) := by
      intro hc
      obtain ⟨r, hr, h1, h2⟩ := getOrder_some_mem db u k row h
      exact hkeyw ⟨r, hr, by rw [h1, hc.1], by rw [h2, hc.2]⟩
    simp only [createOrderKeyed, if_neg huw, if_neg haw, if_neg hdw,
      sqlCreateOrderIdempotent, if_neg hkeyw, insertOutboxO]
    unfold getOrderByIdempotency at h ⊢
    simp only
    rw [List.find?_cons_of_neg _ (by
      simp only [decide_eq_true_eq, not_and]
      intro h1 h2
      exact absurd ⟨h1.symm, (Option.some.inj h2).symm⟩ hne)]
    exact h

theorem ordersHandle_preserves_order_row (db : OrdersDB)
    (m : BusMsg PaymentResultWire) (u k : String) (row : OrderRow)
    (h : getOrderByIdempotency db u k = some row) :
    ∃ s', getOrderByIdempotency (ordersHandle db m) u k =
      some { row with status := s' } := by
  cases m with
  | garbled => exact ⟨row.status, h⟩
  | ok ev =>
    cases hei : ev.event_id with
    | none =>
      refine ⟨row.status, ?_⟩
      simpa [ordersHandle, hei] using h
    | some i =>
      cases heo : ev.order_id with
      | none =>
        refine ⟨row.status, ?_⟩
        simpa [ordersHandle, hei, heo] using h
      | some o =>
        rw [ordersHandle_ok db ev i o hei heo]
        by_cases hdup : i ∈ db.inbox
        · rw [if_pos hdup]
          exact ⟨row.status, h⟩
        · rw [if_neg hdup]
          exact getOrder_update_status _ o _ u k row h

/-- No orders-service step disturbs a stored order row in anything but its
status. -/
theorem ordStep_order_row (db : OrdersDB) (c : OrdCmd) (u k : String)
    (row : OrderRow) (h : getOrderByIdempotency db u k = some row) :
    ∃ s', getOrderByIdempotency (ordStep db c) u k =
      some { row with status := s' } := by
  cases c with
  | createN uw aw dw fo fe now =>
    exact ⟨row.status, createOrderNoKey_preserves db uw aw dw fo fe now u k row h⟩
  | createK uw aw dw kw fo fe now =>
    exact ⟨row.status, createOrderKeyed_preserves db uw aw dw kw fo fe now u k row h⟩
  | consume m => exact ordersHandle_preserves_order_row db m u k row h
  | publish pubOk batch => exact ⟨row.status, h⟩

/-- A stored order row survives any sequence of orders-service steps with
only its status possibly changed. -/
theorem foldl_ordStep_order_row (cmds : List OrdCmd) (db : OrdersDB)
    (u k : String) (row : OrderRow)
    (h : getOrderByIdempotency db u k = some row) :
    ∃ s', getOrderByIdempotency (cmds.foldl ordStep db) u k =
      some { row with status := s' } := by
  induction cmds generalizing db row with
  | nil => exact ⟨row.status, h⟩
  | cons c t ih =>
    obtain ⟨s1, h1⟩ := ordStep_order_row db c u k row h
    obtain ⟨s2, h2⟩ := ih (ordStep db c) { row with status := s1 } h1
    exact ⟨s2, h2⟩

/-- After a successful keyed create-order, the key's stored row carries
the response fields and the requested parameters. -/
theorem createOrderKeyed_ok_row (db : OrdersDB) (u : String) (a : Int)
    (d k : String) (fo fe now : Nat) (resp : OrderResp) (hu : u ≠ "")
    (ha : 0 < a) (hd : d ≠ "")
    (h : (createOrderKeyed db u a d k fo fe now).1 = .ok resp) :
    ∃ row, getOrderByIdempotency
        ((createOrderKeyed db u a d k fo fe now).2) u k = some row ∧
      respOfRow row = resp ∧ row.amount = a ∧ row.description = d := by
  have ha' : ¬ a ≤ 0 := by omega
  by_cases hkey : orderKeyTaken db u k
  · cases hget : getOrderByIdempotency db u k with
    | none =>
      simp [createOrderKeyed, hu, ha', hd, sqlCreateOrderIdempotent,
        hkey, hget] at h
    | some row =>
      by_cases hmis : row.amount ≠ a ∨ row.description ≠ d
      · simp [createOrderKeyed, hu, ha', hd, sqlCreateOrderIdempotent,
          hkey, hget, hmis] at h
      · push_neg at hmis
        have hre := createOrderKeyed_replay db u a d k fo fe now row hu ha
          hd hget hmis.1 hmis.2
        refine ⟨row, ?_, ?_, hmis.1, hmis.2⟩
        · rw [hre]
          exact hget
        · rw [hre] at h
          exact Except.ok.inj h
  · rw [createOrderKeyed_fresh db u a d k fo fe now hu ha hd hkey] at h ⊢
    refine ⟨⟨fo, u, a, d, "NEW", now, some k⟩, ?_, ?_, rfl, rfl⟩
    · show getOrderByIdempotency _ u k = _
      unfold getOrderByIdempotency
      exact List.find?_cons_of_pos _ (by simp)
    · exact Except.ok.inj h

/-- **C7 (amended).** A retried keyed top-up returns the same
`balance_after` as the first call, whatever payments-service steps ran in
between.  A retried keyed create-order returns the same `order_id`,
`user_id`, `amount`, `description` and `created_at` as the first call,
whatever orders-service steps ran in between — but its `status` field
reflects the order's *current* status, so the full response body can
differ from the original (see the counterexample). -/
theorem replay_response_stability :
    (∀ (db : PaymentsDB) (u k : String) (a b : Int) (cmds : List PayCmd),
       u ≠ "" → 0 < a → (topUpKeyed db u a k).1 = .ok b →
       (topUpKeyed (cmds.foldl payStep (topUpKeyed db u a k).2) u a k).1 =
         .ok b) ∧
    (∀ (db : OrdersDB) (u : String) (a : Int) (d k : String)
       (fo fe now fo' fe' now' : Nat) (resp : OrderResp)
       (cmds : List OrdCmd),
       u ≠ "" → 0 < a → d ≠ "" →
       (createOrderKeyed db u a d k fo fe now).1 = .ok resp →
       ∃ resp', (createOrderKeyed
           (cmds.foldl ordStep (createOrderKeyed db u a d k fo fe now).2)
           u a d k fo' fe' now').1 = .ok resp' ∧
         resp'.order_id = resp.order_id ∧ resp'.user_id = resp.user_id ∧
         resp'.amount = resp.amount ∧ resp'.description = resp.description ∧
         resp'.created_at = resp.created_at) := by
  constructor
  · intro db u k a b cmds hu ha h
    obtain ⟨row, hget, hamt, hbal⟩ := topUpKeyed_ok_row db u k a b hu ha h
    have hpres := foldl_payStep_topup_row cmds _ u k row hget
    rw [topUpKeyed_replay _ u k a row hu ha hpres hamt, hbal]
  · intro db u a d k fo fe now fo' fe' now' resp cmds hu ha hd h
    obtain ⟨row, hget, hresp, hamt, hdesc⟩ :=
      createOrderKeyed_ok_row db u a d k fo fe now resp hu ha hd h
    obtain ⟨s', hget'⟩ := foldl_ordStep_order_row cmds _ u k row hget
    refine ⟨respOfRow { row with status := s' }, ?_, ?_, ?_, ?_, ?_, ?_⟩
    · rw [createOrderKeyed_replay _ u a d k fo' fe' now'
        { row with status := s' } hu ha hd hget' hamt hdesc]
    · rw [← hresp]; rfl
    · rw [← hresp]; rfl
    · rw [← hresp]; rfl
    · rw [← hresp]; rfl
    · rw [← hresp]; rfl

/-- Witness for C7 (amended): a keyed top-up returning balance 15 returns
15 again on retry even after an unkeyed top-up of 7 ran in between. -/
theorem replay_response_stability_witness :
    (topUpKeyed ([PayCmd.topUpN "u" 7].foldl payStep
      (topUpKeyed ⟨[⟨"u", 10⟩], [], [], [], [], 0⟩ "u" 5 "k").2)
      "u" 5 "k").1 = .ok 15 :=
  replay_response_stability.1 ⟨[⟨"u", 10⟩], [], [], [], [], 0⟩ "u" "k" 5 15
    [PayCmd.topUpN "u" 7] (by decide) (by decide) (by decide)

/-- Counterexample to C7 as stated: create an order with key `k` (response
status NEW), let the payment-result consumer finish the order, then replay
the create-order with key `k` — the replayed response carries status
FINISHED, so it is not identical to the first response. -/
theorem replay_response_ce :
    (createOrderKeyed (ordersHandle
        (createOrderKeyed OrdersDB.empty "u" 1 "b" "k" 1 2 3).2
        (.ok ⟨some 5, some 1, "u", .success, ""⟩)) "u" 1 "b" "k" 7 8 9).1 ≠
      (createOrderKeyed OrdersDB.empty "u" 1 "b" "k" 1 2 3).1 := by decide

end PaymentsService
